import Mathlib

/-!
Shallow embedding of the ingestion-and-aggregation core of
`openclaw-dashboard` (`src/server.js`) together with proofs settling the
frozen claims C1..C10.

Modelling conventions:
* JS numbers that hold token counts, sizes and millisecond timestamps are
  embedded as `Int` (the program only ever adds, compares and copies them).
* A nullable JS string is `Option String`; JS string truthiness (`""` is
  falsy) is captured by `jsOptStr`.
* JS regular-expression matching is embedded by a small backtracking
  engine (`RE`, `reMatch`) whose alternation is leftmost-first and whose
  quantifiers are greedy (or lazy for `*?`), mirroring JS semantics; each
  regex literal of the source is transcribed into an `RE` value.
* SQLite tables are lists of rows in rowid (insertion) order; `ON CONFLICT`
  upserts update the existing row in place, inserts append.
-/

namespace OpenClawDash

/-! ### JS coercion helpers (server.js `toNumber`, `toTimestamp`, truthiness) -/

/-- JS whitespace class: the characters matched by `\s` and removed by
`String.prototype.trim`. -/
def isJsWs (c : Char) : Bool :=
  c = ' ' || c = '\t' || c = '\n' || c = '\r' ||
  c = Char.ofNat 0x0b || c = Char.ofNat 0x0c ||
  c = Char.ofNat 0xa0 || c = Char.ofNat 0x1680 ||
  (0x2000 ≤ c.toNat && c.toNat ≤ 0x200a) ||
  c = Char.ofNat 0x2028 || c = Char.ofNat 0x2029 ||
  c = Char.ofNat 0x202f || c = Char.ofNat 0x205f ||
  c = Char.ofNat 0x3000 || c = Char.ofNat 0xfeff

/-- `String.prototype.trim`. -/
def jsTrim (s : String) : String :=
  String.mk (((s.toList.dropWhile isJsWs).reverse.dropWhile isJsWs).reverse)

/-- Coercion `x ? String(x) : null` applied to a nullable string: the empty
string is falsy in JS. -/
def jsOptStr : Option String → Option String
  | some s => if s = "" then none else some s
  | none => none

/-- server.js `toTimestamp` on an already-numeric value: keep a positive
finite number, otherwise use the fallback. -/
def toTimestamp (value fallback : Int) : Int :=
  if value > 0 then value else fallback

/-- JS `x || y` on numbers produced by `toNumber` (only `0` is falsy). -/
def jsOrInt (x y : Int) : Int :=
  if x = 0 then y else x

/-- `toNumber` applied to an optional numeric JSON field
(`Number(v || 0)`, absent → 0). -/
def optNum : Option Int → Int
  | some n => n
  | none => 0

/-- server.js `hasTokenActivity`, applied to a record's three token
fields. -/
def hasTokenActivity (totalTokens inputTokens outputTokens : Int) : Bool :=
  totalTokens > 0 || inputTokens > 0 || outputTokens > 0

/-- server.js `normalizeModelName`. -/
def normalizeModelName (model : String) : String :=
  let value := jsTrim model
  if value = "" then "Unknown" else value

/-- server.js `isUnknownZeroNoiseRecord`, over the fields it reads. -/
def isUnknownZeroNoiseRecord (model : String)
    (totalTokens inputTokens outputTokens : Int) : Bool :=
  normalizeModelName model = "Unknown" &&
  !hasTokenActivity totalTokens inputTokens outputTokens

/-! ### A small JS-style regex engine

Backtracking matcher with leftmost-first alternation, greedy `*`/`?`/`{n,}`
and lazy `*?`, word boundaries and string anchors, driven by fuel (the fuel
bound only limits recursion depth; `reFuel` is generous enough for every
pattern/input pair in this development). -/

inductive RE where
  | eps
  | cls (p : Char → Bool)
  | seq (a b : RE)
  | alt (a b : RE)
  | star (r : RE)
  | starL (r : RE)
  | rep (n : Nat) (r : RE)
  | opt (r : RE)
  | grp (i : Nat) (r : RE)
  | bos
  | eos
  | wordB

/-- Captured groups: most recent capture first. -/
abbrev Caps := List (Nat × String)

def charAt (s : List Char) (i : Nat) : Option Char :=
  (s.drop i).head?

/-- JS `\w`. -/
def isWordChar (c : Char) : Bool :=
  ('A' ≤ c && c ≤ 'Z') || ('a' ≤ c && c ≤ 'z') || ('0' ≤ c && c ≤ '9') || c = '_'

def sliceStr (s : List Char) (a b : Nat) : String :=
  String.mk ((s.drop a).take (b - a))

def reMatch (fuel : Nat) (re : RE) (s : List Char) (pos : Nat) (caps : Caps)
    (k : Nat → Caps → Option (Nat × Caps)) : Option (Nat × Caps) :=
  match fuel with
  | 0 => none
  | fuel + 1 =>
    match re with
    | .eps => k pos caps
    | .cls p =>
      match charAt s pos with
      | some c => if p c then k (pos + 1) caps else none
      | none => none
    | .seq a b => reMatch fuel a s pos caps fun p c => reMatch fuel b s p c k
    | .alt a b =>
      match reMatch fuel a s pos caps k with
      | some res => some res
      | none => reMatch fuel b s pos caps k
    | .star r =>
      match reMatch fuel r s pos caps
          (fun p c => if pos < p then reMatch fuel (.star r) s p c k else none) with
      | some res => some res
      | none => k pos caps
    | .starL r =>
      match k pos caps with
      | some res => some res
      | none =>
        reMatch fuel r s pos caps
          fun p c => if pos < p then reMatch fuel (.starL r) s p c k else none
    | .rep 0 _ => k pos caps
    | .rep (n + 1) r =>
      reMatch fuel r s pos caps fun p c => reMatch fuel (.rep n r) s p c k
    | .opt r =>
      match reMatch fuel r s pos caps k with
      | some res => some res
      | none => k pos caps
    | .grp i r =>
      reMatch fuel r s pos caps fun p c => k p ((i, sliceStr s pos p) :: c)
    | .bos => if pos = 0 then k pos caps else none
    | .eos => if pos = s.length then k pos caps else none
    | .wordB =>
      let w1 := if pos = 0 then false else
        match charAt s (pos - 1) with
        | some c => isWordChar c
        | none => false
      let w2 :=
        match charAt s pos with
        | some c => isWordChar c
        | none => false
      if w1 ≠ w2 then k pos caps else none

/-- Size-based fuel bound: an upper bound (plus margin) on the matcher's
recursion depth for this pattern over this input. -/
def reSize : RE → Nat
  | .eps | .bos | .eos | .wordB => 1
  | .cls _ => 1
  | .seq a b => reSize a + reSize b + 1
  | .alt a b => reSize a + reSize b + 1
  | .star r => reSize r + 2
  | .starL r => reSize r + 2
  | .rep n r => (n + 1) * (reSize r + 1) + 1
  | .opt r => reSize r + 1
  | .grp _ r => reSize r + 1

def reFuel (re : RE) (s : List Char) : Nat :=
  (reSize re + 4) * (s.length + 4)

/-- Try to match `re` starting exactly at `pos`; returns end position and
captures. -/
def reMatchAt (re : RE) (s : List Char) (pos : Nat) : Option (Nat × Caps) :=
  reMatch (reFuel re s) re s pos [] fun p c => some (p, c)

/-- Leftmost match at or after `i` (`budget` counts remaining candidate
start positions). -/
def reFindAux (re : RE) (s : List Char) : Nat → Nat → Option (Nat × Nat × Caps)
  | _, 0 => none
  | i, budget + 1 =>
    match reMatchAt re s i with
    | some (e, caps) => some (i, e, caps)
    | none => reFindAux re s (i + 1) budget

def reFind (re : RE) (s : List Char) (start : Nat) : Option (Nat × Nat × Caps) :=
  reFindAux re s start (s.length + 1 - start)

/-- `RegExp.prototype.test`. -/
def reTest (re : RE) (s : String) : Bool :=
  (reFind re s.toList 0).isSome

/-- `String.prototype.replace` with a `g` regex and a replacement function
of the match text and captures (JS advances one char past an empty
match). -/
def reReplaceAllAux (re : RE) (s : List Char) (repl : String → Caps → String) :
    Nat → Nat → String → String
  | _, 0, acc => acc
  | i, budget + 1, acc =>
    match reFind re s i with
    | none => acc ++ String.mk (s.drop i)
    | some (a, e, caps) =>
      let acc := acc ++ sliceStr s i a ++ repl (sliceStr s a e) caps
      if e > a then
        reReplaceAllAux re s repl e budget acc
      else
        match charAt s e with
        | some c => reReplaceAllAux re s repl (e + 1) budget (acc.push c)
        | none => acc

def reReplaceAll (re : RE) (repl : String → Caps → String) (s : String) : String :=
  reReplaceAllAux re s.toList repl 0 (s.toList.length + 1) ""

/-- `String.prototype.replace` with a non-`g` regex (first match only). -/
def reReplaceFirst (re : RE) (repl : String → Caps → String) (s : String) : String :=
  match reFind re s.toList 0 with
  | none => s
  | some (a, e, caps) =>
    sliceStr s.toList 0 a ++ repl (sliceStr s.toList a e) caps ++
      String.mk (s.toList.drop e)

def getCap (caps : Caps) (i : Nat) : String :=
  match caps.find? (fun x => x.1 = i) with
  | some x => x.2
  | none => ""

/-! #### Regex constructors used to transcribe the source literals -/

def chC (c : Char) : RE := .cls fun x => x = c

def chI (c : Char) : RE := .cls fun x => x.toLower = c.toLower

def reCat (l : List RE) : RE := l.foldr .seq .eps

def reOr : List RE → RE
  | [] => .eps
  | [x] => x
  | x :: xs => .alt x (reOr xs)

def litS (s : String) : RE := reCat (s.toList.map chC)

def litI (s : String) : RE := reCat (s.toList.map chI)

def clsIn (cs : List Char) : RE := .cls fun c => cs.contains c

def plus1 (r : RE) : RE := .seq r (.star r)

/-- `{n,}`. -/
def repGE (n : Nat) (r : RE) : RE := .seq (.rep n r) (.star r)

/-- JS `\s`. -/
def wsC : RE := .cls isJsWs

/-- JS `\d`. -/
def digitC : RE := .cls fun c => '0' ≤ c && c ≤ '9'

/-- `[A-Za-z]`. -/
def asciiAlphaC : RE := .cls fun c => ('A' ≤ c && c ≤ 'Z') || ('a' ≤ c && c ≤ 'z')

/-- JS `.` (excludes line terminators). -/
def dotC : RE := .cls fun c =>
  !(c = '\n' || c = '\r' || c = Char.ofNat 0x2028 || c = Char.ofNat 0x2029)

/-- JS `[\s\S]`. -/
def allC : RE := .cls fun _ => true

def quoteChars : List Char := ['"', Char.ofNat 39]

def backtickChar : Char := Char.ofNat 96

/-! ### Redaction (server.js lines 35-43, 75-105)

`SENSITIVE_KEY_RE`, `SENSITIVE_INLINE_RE` and the inline `client_id`
key/value regex are transcribed literally. -/

def underDashOpt : RE := .opt (clsIn ['_', '-'])

/-- `/(api[-_]?key|token|secret|password|authorization|auth|cookie|client[_-]?id|client[_-]?secret)/i` -/
def sensitiveKeyRe : RE :=
  .grp 1 (reOr [
    reCat [litI "api", .opt (clsIn ['-', '_']), litI "key"],
    litI "token", litI "secret", litI "password", litI "authorization",
    litI "auth", litI "cookie",
    reCat [litI "client", underDashOpt, litI "id"],
    reCat [litI "client", underDashOpt, litI "secret"]])

/-- `[A-Za-z0-9_-]`. -/
def wordDashC : RE := .cls fun c => isWordChar c || c = '-'

/-- `/(sk-[A-Za-z0-9_-]{10,})/g` -/
def skKeyRe : RE := .grp 1 (reCat [litS "sk-", repGE 10 wordDashC])

/-- `/([A-Za-z0-9_]{20,}\.[A-Za-z0-9_]{10,}\.[A-Za-z0-9_-]{10,})/g` -/
def jwtLikeRe : RE :=
  .grp 1 (reCat [repGE 20 (.cls isWordChar), chC '.', repGE 10 (.cls isWordChar),
    chC '.', repGE 10 wordDashC])

/-- `/\bGOCSPX-[A-Za-z0-9_-]{10,}\b/g` -/
def gocspxRe : RE := reCat [.wordB, litS "GOCSPX-", repGE 10 wordDashC, .wordB]

/-- `/\bAIza[0-9A-Za-z_-]{10,}\b/g` -/
def aizaRe : RE := reCat [.wordB, litS "AIza", repGE 10 wordDashC, .wordB]

/-- `[a-z0-9]` under the `i` flag. -/
def lowerDigitIC : RE := .cls fun c =>
  ('a' ≤ c.toLower && c.toLower ≤ 'z') || ('0' ≤ c && c ≤ '9')

/-- `/\b\d{12,}-[a-z0-9]{10,}\.apps\.googleusercontent\.com\b/gi` -/
def googleClientRe : RE :=
  reCat [.wordB, repGE 12 digitC, chC '-', repGE 10 lowerDigitIC,
    litI ".apps.googleusercontent.com", .wordB]

def SENSITIVE_INLINE_RE : List RE :=
  [skKeyRe, jwtLikeRe, gocspxRe, aizaRe, googleClientRe]

/-- `/\b(client[_-]?id|client[_-]?secret|oauth[_-]?client[_-]?(?:id|secret))\b\s*[:=]\s*["']?([^\s,"';]+)["']?/gi` -/
def clientKvRe : RE :=
  reCat [.wordB,
    .grp 1 (reOr [
      reCat [litI "client", underDashOpt, litI "id"],
      reCat [litI "client", underDashOpt, litI "secret"],
      reCat [litI "oauth", underDashOpt, litI "client", underDashOpt,
        reOr [litI "id", litI "secret"]]]),
    .wordB, .star wsC, clsIn [':', '='], .star wsC,
    .opt (clsIn quoteChars),
    .grp 2 (plus1 (.cls fun c =>
      !(isJsWs c || c = ',' || c = '"' || c = Char.ofNat 39 || c = ';'))),
    .opt (clsIn quoteChars)]

/-- server.js `redactInline`: the `client_id` key/value substitution, then
every inline credential pattern, applied unconditionally in order. -/
def redactInline (text : String) : String :=
  let output := text
  let output :=
    reReplaceAll clientKvRe (fun _ caps => getCap caps 1 ++ ": [REDACTED]") output
  SENSITIVE_INLINE_RE.foldl
    (fun o pat => reReplaceAll pat (fun _ _ => "[REDACTED]") o) output

/-- server.js `maskSecret`. Its sole call site is
`maskSecret(String(value))`, so the argument is always a string and the
`typeof value !== "string"` branch is unreachable; the embedding therefore
takes a `String`. -/
def maskSecret (value : String) : String :=
  if value.length ≤ 8 then "[REDACTED]"
  else
    String.mk (value.toList.take 3) ++ "***" ++
      String.mk (value.toList.drop (value.toList.length - 3))

/-- JSON-like JS values as handled by `redactObject` / `String(...)`. -/
inductive JSVal where
  | null
  | bool (b : Bool)
  | num (n : Int)
  | str (s : String)
  | arr (elems : List JSVal)
  | obj (fields : List (String × JSVal))

/-- `Array.prototype.join(",")`. -/
def jsArrJoin : List String → String
  | [] => ""
  | [x] => x
  | x :: xs => x ++ "," ++ jsArrJoin xs

mutual

/-- JS `String(value)`: `null` prints as `"null"` at top level but becomes
the empty string inside an array join; objects print as
`"[object Object]"`. -/
def jsToString : JSVal → String
  | .null => "null"
  | .bool b => if b then "true" else "false"
  | .num n => toString n
  | .str s => s
  | .arr elems => jsArrJoin (jsToStringElems elems)
  | .obj _ => "[object Object]"

/-- Array elements under `join`: `null` becomes the empty string. -/
def jsToStringElems : List JSVal → List String
  | [] => []
  | .null :: rest => "" :: jsToStringElems rest
  | v :: rest => jsToString v :: jsToStringElems rest

end

mutual

/-- server.js `redactObject`. -/
def redactObject : JSVal → JSVal
  | .arr elems => .arr (redactObjectElems elems)
  | .obj fields => .obj (redactObjectFields fields)
  | v => v

/-- `input.map(redactObject)` for an array. -/
def redactObjectElems : List JSVal → List JSVal
  | [] => []
  | v :: rest => redactObject v :: redactObjectElems rest

/-- The `Object.entries` loop of `redactObject`. -/
def redactObjectFields : List (String × JSVal) → List (String × JSVal)
  | [] => []
  | (key, value) :: rest =>
    (key,
      if reTest sensitiveKeyRe key then .str (maskSecret (jsToString value))
      else redactObject value) :: redactObjectFields rest

end

mutual

/-- The class of values on which structured redaction is idempotent:
every value reachable under a sensitive key stringifies to at least 9
characters (so that its mask `xxx***yyy` is a fixed point of
`maskSecret`). -/
def sensLenOk : JSVal → Bool
  | .arr elems => sensLenOkElems elems
  | .obj fields => sensLenOkFields fields
  | _ => true

def sensLenOkElems : List JSVal → Bool
  | [] => true
  | v :: rest => sensLenOk v && sensLenOkElems rest

def sensLenOkFields : List (String × JSVal) → Bool
  | [] => true
  | (k, v) :: rest =>
    (if reTest sensitiveKeyRe k then decide (9 ≤ (jsToString v).length)
     else sensLenOk v) && sensLenOkFields rest

end

/-! ### Query-text normalization (server.js `stripMetadataCodeFence`,
`normalizeQueryText`, lines 406-465)

String indices: the embedding counts code points where JS counts UTF-16
units; they agree on every string handled in this development (all code
points are in the BMP). -/

/-- `/<image>[\s\S]*?<\/image>/gi` -/
def imageTagRe : RE := reCat [litI "<image>", .starL allC, litI "</image>"]

/-- `/!\[[^\]]*]\([^)]*\)/g` -/
def mdImageRe : RE :=
  reCat [chC '!', chC '[', .star (.cls fun c => c ≠ ']'), chC ']',
    chC '(', .star (.cls fun c => c ≠ ')'), chC ')']

/-- `[_\s-]` -/
def underWsDashC : RE := .cls fun c => c = '_' || isJsWs c || c = '-'

/-- The metadata-signature probe inside `stripMetadataCodeFence`:
`/conversation[_\s-]*label|conversation info|untrusted metadata|channel|session[_\s-]*id|timestamp|gmt[+-]?\d+/i` -/
def fenceProbeRe : RE :=
  reOr [
    reCat [litI "conversation", .star underWsDashC, litI "label"],
    litI "conversation info",
    litI "untrusted metadata",
    litI "channel",
    reCat [litI "session", .star underWsDashC, litI "id"],
    litI "timestamp",
    reCat [litI "gmt", .opt (clsIn ['+', '-']), plus1 digitC]]

def fenceMark : String := String.mk [backtickChar, backtickChar, backtickChar]

/-- The fenced-block regex of `stripMetadataCodeFence` (three backticks,
optional `json|yaml|yml|txt|text` tag, lazy body, three backticks; `gi`). -/
def codeFenceRe : RE :=
  reCat [litS fenceMark,
    .opt (reOr [litI "json", litI "yaml", litI "yml", litI "txt", litI "text"]),
    .star wsC, .grp 1 (.starL allC), litS fenceMark]

/-- server.js `stripMetadataCodeFence`. -/
def stripMetadataCodeFence (text : String) : String :=
  reReplaceAll codeFenceRe
    (fun block caps =>
      let probe := (getCap caps 1).toLower
      if reTest fenceProbeRe probe then " " else block)
    text

/-- `/conversation info\s*\(untrusted metadata\)\s*:?\s*/gi` -/
def convInfoRe : RE :=
  reCat [litI "conversation info", .star wsC, chC '(', litI "untrusted metadata",
    chC ')', .star wsC, .opt (chC ':'), .star wsC]

/-- `/(?:^|\s)untrusted metadata\s*:?\s*/gi` -/
def untrustedMetaRe : RE :=
  reCat [reOr [.bos, wsC], litI "untrusted metadata", .star wsC, .opt (chC ':'),
    .star wsC]

def notRBracket : RE := .cls fun c => c ≠ ']'

/-- `/^\[[^\]]*(?:cron|schedule|metadata|session|channel|日报|定时任务)[^\]]*\]\s*/i` -/
def bracketKeywordRe : RE :=
  reCat [.bos, chC '[', .star notRBracket,
    reOr [litI "cron", litI "schedule", litI "metadata", litI "session",
      litI "channel", litS "日报", litS "定时任务"],
    .star notRBracket, chC ']', .star wsC]

/-- `/\[[A-Za-z]{3}\s+\d{4}-\d{2}-\d{2}[^\]]*GMT[+-]?\d+[^\]]*\]/g` -/
def gmtBracketRe : RE :=
  reCat [chC '[', .rep 3 asciiAlphaC, plus1 wsC, .rep 4 digitC, chC '-',
    .rep 2 digitC, chC '-', .rep 2 digitC, .star notRBracket, litS "GMT",
    .opt (clsIn ['+', '-']), plus1 digitC, .star notRBracket, chC ']']

/-- `/\bCurrent time:\s*[^。.!?]+(?:[。.!?]|$)/gi` -/
def currentTimeRe : RE :=
  reCat [.wordB, litI "Current time:", .star wsC,
    plus1 (.cls fun c => !(c = '。' || c = '.' || c = '!' || c = '?')),
    reOr [clsIn ['。', '.', '!', '?'], .eos]]

/-- `/\bReturn your summary as plain text[\s\S]*$/i` -/
def summaryTrailerRe : RE :=
  reCat [.wordB, litI "Return your summary as plain text", .star allC, .eos]

/-- `/\bIf the task explicitly calls for messaging[\s\S]*$/i` -/
def messagingTrailerRe : RE :=
  reCat [.wordB, litI "If the task explicitly calls for messaging", .star allC,
    .eos]

/-- `/^[\s\]\)]*\d{1,2}:\d{2}\s*定时任务\s*[-:：]\s*/i` -/
def cronLabelRe : RE :=
  reCat [.bos, .star (.cls fun c => isJsWs c || c = ']' || c = ')'),
    digitC, .opt digitC, chC ':', .rep 2 digitC, .star wsC, litS "定时任务",
    .star wsC, clsIn ['-', ':', '：'], .star wsC]

def quoteTickChars : List Char := ['"', Char.ofNat 39, backtickChar]

/-- `/["'`]?conversation[_\s-]*label["'`]?[\s:=-]+[A-Za-z0-9._/\-]+/gi`
(the final class is written here with an escaped dash to keep this comment
well formed; the source spells it `A-Za-z0-9._` slash dash). -/
def convLabelRe : RE :=
  reCat [.opt (clsIn quoteTickChars), litI "conversation", .star underWsDashC,
    litI "label", .opt (clsIn quoteTickChars),
    plus1 (.cls fun c => isJsWs c || c = ':' || c = '=' || c = '-'),
    plus1 (.cls fun c => isWordChar c || c = '.' || c = '/' || c = '-')]

/-- The `leadingNoiseRe` literal of `normalizeQueryText`. -/
def leadingNoiseRe : RE :=
  reCat [.bos, plus1 (reOr [
    plus1 (.cls fun c => isJsWs c || c = ',' || c = ';' || c = '|' || c = ':'),
    reCat [
      reOr [
        reCat [litI "conversation", .star underWsDashC, litI "label"],
        litI "conversation info", litI "untrusted metadata", litI "channel",
        litI "source", litI "date", litI "time", litI "timestamp",
        reCat [litI "session", .opt (reOr [litI "_id", litI " id"])],
        litI "openclaw-tui"],
      .star wsC, clsIn [':', '=', '-'], .star wsC]])]

/-- The metadata probe applied to the text before `没错`:
`/conversation|metadata|openclaw-tui|gmt|session|\[[^\]]*$/i` -/
def agreePrefixProbeRe : RE :=
  reOr [litI "conversation", litI "metadata", litI "openclaw-tui", litI "gmt",
    litI "session", reCat [chC '[', .star notRBracket, .eos]]

/-- The metadata probe applied to the text before the first Han character:
`/conversation|metadata|openclaw-tui|gmt|session|[A-Za-z]{3}\s+\d{4}-\d{2}-\d{2}/i` -/
def hanPrefixProbeRe : RE :=
  reOr [litI "conversation", litI "metadata", litI "openclaw-tui", litI "gmt",
    litI "session",
    reCat [.rep 3 asciiAlphaC, plus1 wsC, .rep 4 digitC, chC '-', .rep 2 digitC,
      chC '-', .rep 2 digitC]]

/-- `\p{Script=Han}` restricted to the principal Han blocks (CJK unified
ideographs and extensions, compatibility ideographs, radicals, iteration
and number marks); exact on every string this development evaluates. -/
def isHan (c : Char) : Bool :=
  let n := c.toNat
  (0x4e00 ≤ n && n ≤ 0x9fff) || (0x3400 ≤ n && n ≤ 0x4dbf) ||
  (0xf900 ≤ n && n ≤ 0xfaff) || (0x2e80 ≤ n && n ≤ 0x2ef3) ||
  (0x2f00 ≤ n && n ≤ 0x2fd5) || n = 0x3005 || n = 0x3007 ||
  (0x3021 ≤ n && n ≤ 0x3029) || (0x3038 ≤ n && n ≤ 0x303b) ||
  (0x20000 ≤ n && n ≤ 0x2a6df) || (0x2a700 ≤ n && n ≤ 0x2ebef) ||
  (0x2f800 ≤ n && n ≤ 0x2fa1f) || (0x30000 ≤ n && n ≤ 0x3134a)

/-- Does the first list lead (start) the second? -/
def isLeadOf : List Char → List Char → Bool
  | [], _ => true
  | _ :: _, [] => false
  | a :: as, b :: bs => a = b && isLeadOf as bs

/-- `String.prototype.indexOf` (first occurrence, `none` for `-1`). -/
def strIndexOfAux (h n : List Char) : Nat → Nat → Option Nat
  | _, 0 => none
  | i, budget + 1 =>
    if isLeadOf n (h.drop i) then some i else strIndexOfAux h n (i + 1) budget

def strIndexOf (h n : List Char) : Option Nat :=
  strIndexOfAux h n 0 (h.length + 1)

/-- `String.prototype.search` with a single-character-class pattern. -/
def firstIdxWhere (p : Char → Bool) : List Char → Nat → Option Nat
  | [], _ => none
  | c :: rest, i => if p c then some i else firstIdxWhere p rest (i + 1)

/-- The `while (leadingNoiseRe.test(compact))` loop; each iteration removes
at least one character, so the string length bounds the iteration count. -/
def stripLeadingNoise : Nat → String → String
  | 0, s => s
  | fuel + 1, s =>
    if reTest leadingNoiseRe s then
      stripLeadingNoise fuel (jsTrim (reReplaceFirst leadingNoiseRe (fun _ _ => "") s))
    else s

/-- The cleaned text after `normalizeQueryText`'s substitution chain and
whitespace collapse (everything before the first `if (!compact)`). -/
def normalizeQueryCompact (text : Option String) : String :=
  let compact := redactInline (match text with | some s => s | none => "")
  let compact := reReplaceAll imageTagRe (fun _ _ => " ") compact
  let compact := reReplaceAll mdImageRe (fun _ _ => " ") compact
  let compact := stripMetadataCodeFence compact
  let compact := reReplaceAll convInfoRe (fun _ _ => " ") compact
  let compact := reReplaceAll untrustedMetaRe (fun _ _ => " ") compact
  let compact := reReplaceFirst bracketKeywordRe (fun _ _ => " ") compact
  let compact := reReplaceAll gmtBracketRe (fun _ _ => " ") compact
  let compact := reReplaceAll currentTimeRe (fun _ _ => " ") compact
  let compact := reReplaceFirst summaryTrailerRe (fun _ _ => " ") compact
  let compact := reReplaceFirst messagingTrailerRe (fun _ _ => " ") compact
  let compact := reReplaceFirst cronLabelRe (fun _ _ => " ") compact
  let compact := reReplaceAll convLabelRe (fun _ _ => " ") compact
  jsTrim (reReplaceAll (plus1 wsC) (fun _ _ => " ") compact)

/-- The remainder of `normalizeQueryText` after the first null-check:
leading-noise loop, the `没错` cut, the Han-script cut, and
truncation. -/
def normalizeQueryFinish (maxChars : Nat) (compact0 : String) : Option String :=
  if compact0 = "" then none
  else
    let compact := stripLeadingNoise (compact0.length + 1) compact0
    let compact :=
      match strIndexOf compact.toList "没错".toList with
      | some agreeIdx =>
        if agreeIdx > 0 then
          let pre := sliceStr compact.toList 0 agreeIdx
          if reTest agreePrefixProbeRe pre then
            jsTrim (String.mk (compact.toList.drop agreeIdx))
          else compact
        else compact
      | none => compact
    let compact :=
      match firstIdxWhere isHan compact.toList 0 with
      | some hanIdx =>
        if hanIdx > 0 && hanIdx < 260 then
          let pre := sliceStr compact.toList 0 hanIdx
          if reTest hanPrefixProbeRe pre then
            jsTrim (String.mk (compact.toList.drop hanIdx))
          else compact
        else compact
      | none => compact
    if compact = "" then none
    else if compact.length ≤ maxChars then some compact
    else some (String.mk (compact.toList.take (maxChars - 1)) ++ "…")

/-- server.js `normalizeQueryText`. -/
def normalizeQueryText (text : Option String) (maxChars : Nat) : Option String :=
  normalizeQueryFinish maxChars (normalizeQueryCompact text)

/-! ### Format decoders (server.js `parseOpenClawSessionFile`,
`parseCodexSessionFile`, `extractTextFromContent`,
`shouldSkipAutoInjectedQuery`, `mergeOpenClawParsedWithRegistry`)

A log file is modelled as the list of its non-empty lines; a line that
fails `JSON.parse` is the constructor `garbage`, and a parsed line is a
record carrying exactly the fields the decoder inspects. -/

def jsvalTruthy : JSVal → Bool
  | .null => false
  | .bool b => b
  | .num n => n ≠ 0
  | .str s => s ≠ ""
  | .arr _ => true
  | .obj _ => true

/-- Read a field that must be a string (`typeof x === "string"`). -/
def objFieldStr (fields : List (String × JSVal)) (key : String) : Option String :=
  match fields.find? (fun f => f.1 = key) with
  | some (_, .str s) => some s
  | _ => none

/-- One element of the `content.map(...)` arrow inside
`extractTextFromContent`. -/
def contentPartText (part : JSVal) : String :=
  if !jsvalTruthy part then ""
  else match part with
  | .str s => s
  | .obj fields =>
    (match objFieldStr fields "text" with
     | some t => t
     | none =>
       match objFieldStr fields "input_text" with
       | some t => t
       | none => "")
  | _ => ""

def joinNL : List String → String
  | [] => ""
  | [x] => x
  | x :: xs => x ++ "\n" ++ joinNL xs

/-- server.js `extractTextFromContent`. -/
def extractTextFromContent : Option JSVal → String
  | none => ""
  | some v =>
    if !jsvalTruthy v then ""
    else match v with
    | .str s => s
    | .arr parts =>
      jsTrim (joinNL ((parts.map contentPartText).filter (fun s => s ≠ "")))
    | .obj fields =>
      (match objFieldStr fields "text" with
       | some t => t
       | none =>
         match objFieldStr fields "input_text" with
         | some t => t
         | none => "")
    | _ => ""

def strContains (s sub : String) : Bool :=
  (strIndexOf s.toList sub.toList).isSome

/-- server.js `shouldSkipAutoInjectedQuery`. -/
def shouldSkipAutoInjectedQuery (text : String) : Bool :=
  strContains text "AGENTS.md instructions" ||
  strContains text "<permissions instructions>" ||
  strContains text "You are Codex, a coding agent based on GPT-5"

/-- The `if (row?.timestamp) updatedAt = Math.max(updatedAt,
toTimestamp(row.timestamp, updatedAt))` step (`0` is falsy). -/
def tsBump (updatedAt : Int) : Option Int → Int
  | some t => if t ≠ 0 then max updatedAt (toTimestamp t updatedAt) else updatedAt
  | none => updatedAt

structure OCUsage where
  input : Option Int
  cacheRead : Option Int
  cacheWrite : Option Int
  output : Option Int
  totalTokens : Option Int
  deriving Repr, DecidableEq

structure OCMessage where
  role : Option String
  content : Option JSVal
  usage : Option OCUsage
  timestamp : Option Int
  model : Option String
  stopReason : Option String

/-- One line of an openclaw session log. -/
inductive OCLine where
  | garbage
  | row (timestamp : Option Int) (type : Option String) (id : Option String)
      (modelId : Option String) (message : Option OCMessage)

def emptyOCMessage : OCMessage := ⟨none, none, none, none, none, none⟩

def emptyOCUsage : OCUsage := ⟨none, none, none, none, none⟩

/-- The accumulator of `parseOpenClawSessionFile`'s line loop. -/
structure OCState where
  sessionId : Option String
  label : Option String
  model : String
  updatedAt : Int
  inputTokens : Int
  outputTokens : Int
  totalTokens : Int
  inputQuery : Option String

/-- One iteration of the `for (const line of lines)` loop of
`parseOpenClawSessionFile`. -/
def ocLineStep (st : OCState) : OCLine → OCState
  | .garbage => st
  | .row ts ty id modelId message =>
    let st := { st with updatedAt := tsBump st.updatedAt ts }
    if ty = some "session" then
      let st := match jsOptStr id with
        | some i => { st with sessionId := some i }
        | none => st
      { st with updatedAt := tsBump st.updatedAt ts }
    else if ty = some "model_change" then
      match jsOptStr modelId with
      | some m => { st with model := normalizeModelName m }
      | none => st
    else if ty ≠ some "message" then st
    else
      let m := message.getD emptyOCMessage
      let st := { st with updatedAt := tsBump st.updatedAt m.timestamp }
      if m.role = some "user" then
        match normalizeQueryText (some (extractTextFromContent m.content)) 1200 with
        | some q => { st with inputQuery := some q }
        | none => st
      else if m.role ≠ some "assistant" then st
      else
        let st := match jsOptStr m.model with
          | some mm => { st with model := normalizeModelName mm }
          | none => st
        let usage := m.usage.getD emptyOCUsage
        let inputN := optNum usage.input + optNum usage.cacheRead + optNum usage.cacheWrite
        let outputN := optNum usage.output
        let totalN := jsOrInt (optNum usage.totalTokens) (inputN + outputN)
        let st := { st with
          inputTokens := st.inputTokens + inputN,
          outputTokens := st.outputTokens + outputN,
          totalTokens := st.totalTokens + totalN }
        if st.label = none then
          match jsOptStr m.stopReason with
          | some sr => { st with label := some sr }
          | none => st
        else st

/-- The canonical decoded/merged session record shape. -/
structure Parsed where
  source : String
  sessionId : String
  agentId : Option String
  label : Option String
  model : String
  updatedAt : Int
  inputTokens : Int
  outputTokens : Int
  totalTokens : Int
  inputQuery : Option String
  sourcePath : Option String
  deriving Repr, DecidableEq

/-- `path.basename` (posix). -/
def basename (p : String) : String :=
  match (p.splitOn "/").getLast? with
  | some b => b
  | none => p

/-- `[0-9a-f-]` under the `i` flag. -/
def hexDashC : RE := .cls fun c =>
  ('0' ≤ c && c ≤ '9') || ('a' ≤ c.toLower && c.toLower ≤ 'f') || c = '-'

/-- `/^([0-9a-f-]{36})\.jsonl(?:\.deleted\..+)?$/i` -/
def sessionFileRe : RE :=
  reCat [.bos, .grp 1 (.rep 36 hexDashC), litI ".jsonl",
    .opt (reCat [litI ".deleted.", plus1 dotC]), .eos]

/-- server.js `parseOpenClawSessionFile`.  `statMtimeMs` is the file's
`stat.mtimeMs`; `now` stands for `Date.now()`. -/
def parseOpenClawSessionFile (now : Int) (filePath : String) (agentId : String)
    (statMtimeMs : Int) (lines : List OCLine) : Option Parsed :=
  if lines.isEmpty then none
  else
    let base := basename filePath
    let sessionId0 : Option String :=
      match reFind sessionFileRe base.toList 0 with
      | some (_, _, caps) => some (getCap caps 1)
      | none => none
    let st0 : OCState := {
      sessionId := sessionId0, label := none, model := "Unknown",
      updatedAt := jsOrInt statMtimeMs now,
      inputTokens := 0, outputTokens := 0, totalTokens := 0, inputQuery := none }
    let st := lines.foldl ocLineStep st0
    match st.sessionId with
    | none => none
    | some sid => some {
        source := "openclaw", sessionId := sid, agentId := some agentId,
        label := st.label, model := normalizeModelName st.model,
        updatedAt := st.updatedAt, inputTokens := st.inputTokens,
        outputTokens := st.outputTokens, totalTokens := st.totalTokens,
        inputQuery := st.inputQuery, sourcePath := some filePath }

/-- A record of the external session registry as constructed by
`readSessionRegistry` (token fields already coerced by `Number(..|0)`). -/
structure RegRecord where
  agentId : String
  sessionId : Option String
  label : Option String
  model : String
  updatedAt : Int
  inputTokens : Int
  outputTokens : Int
  totalTokens : Int
  sourcePath : Option String
  deriving Repr, DecidableEq

/-- server.js `mergeOpenClawParsedWithRegistry`. -/
def mergeOpenClawParsedWithRegistry (parsed : Parsed)
    (registryRecord : Option RegRecord) : Parsed :=
  match registryRecord with
  | none => parsed
  | some registryRecord =>
    let modelFromRegistry := normalizeModelName registryRecord.model
    let parsedModel := normalizeModelName parsed.model
    let model := if modelFromRegistry ≠ "Unknown" then modelFromRegistry else parsedModel
    let registryInput := registryRecord.inputTokens
    let registryOutput := registryRecord.outputTokens
    let registryTotal := registryRecord.totalTokens
    { parsed with
      label :=
        (match jsOptStr registryRecord.label with
         | some l => some l
         | none => jsOptStr parsed.label),
      model := model,
      updatedAt := max (toTimestamp registryRecord.updatedAt 0)
        (toTimestamp parsed.updatedAt 0),
      inputTokens := if registryInput > 0 then registryInput else parsed.inputTokens,
      outputTokens := if registryOutput > 0 then registryOutput else parsed.outputTokens,
      totalTokens := if registryTotal > 0 then registryTotal else parsed.totalTokens,
      sourcePath :=
        (match jsOptStr parsed.sourcePath with
         | some p => some p
         | none => jsOptStr registryRecord.sourcePath) }

structure CxTokenUsage where
  input_tokens : Option Int
  output_tokens : Option Int
  total_tokens : Option Int

structure CxInfo where
  total_token_usage : Option CxTokenUsage

structure CxPayload where
  id : Option String
  timestamp : Option Int
  model : Option String
  type : Option String
  role : Option String
  content : Option JSVal
  info : Option CxInfo

/-- One line of a codex session log. -/
inductive CxLine where
  | garbage
  | row (timestamp : Option Int) (type : Option String) (payload : Option CxPayload)

def emptyCxPayload : CxPayload := ⟨none, none, none, none, none, none, none⟩

/-- The accumulator of `parseCodexSessionFile`'s line loop. -/
structure CxState where
  sessionId : Option String
  model : String
  updatedAt : Int
  inputTokens : Int
  outputTokens : Int
  totalTokens : Int
  inputQuery : Option String

/-- One iteration of the `for (const line of lines)` loop of
`parseCodexSessionFile`.  Note that the `token_count` branch assigns the
running counters instead of accumulating. -/
def cxLineStep (st : CxState) : CxLine → CxState
  | .garbage => st
  | .row ts ty payload =>
    let st := { st with updatedAt := tsBump st.updatedAt ts }
    let p := payload.getD emptyCxPayload
    if ty = some "session_meta" then
      let st := match jsOptStr p.id with
        | some i => { st with sessionId := some i }
        | none => st
      { st with updatedAt := tsBump st.updatedAt p.timestamp }
    else if ty = some "turn_context" then
      match jsOptStr p.model with
      | some m => { st with model := normalizeModelName m }
      | none => st
    else if ty = some "response_item" then
      if p.type = some "message" && p.role = some "user" then
        match normalizeQueryText (some (extractTextFromContent p.content)) 1200 with
        | some q =>
          if !shouldSkipAutoInjectedQuery q then { st with inputQuery := some q }
          else if st.inputQuery = none then { st with inputQuery := some q }
          else st
        | none => st
      else st
    else if ty = some "event_msg" && p.type = some "token_count" then
      let info := p.info.getD ⟨none⟩
      let total := info.total_token_usage.getD ⟨none, none, none⟩
      let inputN := optNum total.input_tokens
      let outputN := optNum total.output_tokens
      { st with
          inputTokens := inputN,
          outputTokens := outputN,
          totalTokens := jsOrInt (optNum total.total_tokens) (inputN + outputN) }
    else st

/-- `path.basename(filePath, ".jsonl")`. -/
def codexBasename (filePath : String) : String :=
  let b := basename filePath
  if b ≠ ".jsonl" && b.endsWith ".jsonl" then
    String.mk (b.toList.take (b.length - 6))
  else b

/-- server.js `parseCodexSessionFile`. -/
def parseCodexSessionFile (now : Int) (filePath : String) (statMtimeMs : Int)
    (lines : List CxLine) : Option Parsed :=
  if lines.isEmpty then none
  else
    let st0 : CxState := {
      sessionId := none, model := "Codex Local",
      updatedAt := jsOrInt statMtimeMs now,
      inputTokens := 0, outputTokens := 0, totalTokens := 0, inputQuery := none }
    let st := lines.foldl cxLineStep st0
    let sessionId := match st.sessionId with
      | some sid => sid
      | none => codexBasename filePath
    some {
      source := "codex", sessionId := sessionId, agentId := some "codex",
      label := some "Codex local session", model := normalizeModelName st.model,
      updatedAt := st.updatedAt, inputTokens := st.inputTokens,
      outputTokens := st.outputTokens, totalTokens := st.totalTokens,
      inputQuery := st.inputQuery, sourcePath := some filePath }

/-! ### The store (server.js `getDb` schema, `upsertRollup`, `upsertFact`,
`rebuildTokenDaily`, and the tail of `ingestDashboardData`)

Tables are lists of rows in rowid (insertion) order; an `ON CONFLICT`
upsert rewrites the first (unique, by primary key) row with the matching
key in place, otherwise appends. -/

structure RollupRow where
  source : String
  sessionId : String
  agentId : Option String
  model : String
  updatedAt : Int
  inputTokens : Int
  outputTokens : Int
  totalTokens : Int
  deriving Repr, DecidableEq

structure FactRow where
  source : String
  sessionId : String
  agentId : Option String
  label : Option String
  model : String
  updatedAt : Int
  inputTokens : Int
  outputTokens : Int
  totalTokens : Int
  inputQuery : Option String
  sourcePath : Option String
  deriving Repr, DecidableEq

structure DailyRow where
  day : String
  source : String
  model : String
  inputTokens : Int
  outputTokens : Int
  totalTokens : Int
  sessions : Int
  deriving Repr, DecidableEq

structure IngestRow where
  source : String
  filePath : String
  mtimeMs : Int
  sizeBytes : Int
  ingestedAt : Int
  deriving Repr, DecidableEq

structure Store where
  rollup : List RollupRow
  fact : List FactRow
  tokenDaily : List DailyRow
  ingestFile : List IngestRow
  deriving Repr, DecidableEq

/-- `INSERT INTO session_rollup ... ON CONFLICT(source, session_id) DO
UPDATE SET` every non-key field from `excluded`. -/
def upsertRollup (row : RollupRow) : List RollupRow → List RollupRow
  | [] => [row]
  | r :: rest =>
    if r.source = row.source && r.sessionId = row.sessionId then row :: rest
    else r :: upsertRollup row rest

/-- The `ON CONFLICT(source, session_id) DO UPDATE` clause of
`upsertFact`: `label` via `COALESCE(excluded.label, session_fact.label)`,
`input_query` via the `CASE WHEN excluded.input_query IS NOT NULL AND
LENGTH(excluded.input_query) > 0` expression, `source_path` via
`COALESCE`, everything else from `excluded`. -/
def factConflictUpdate (old incoming : FactRow) : FactRow :=
  { old with
      agentId := incoming.agentId,
      label :=
        (match incoming.label with
         | some l => some l
         | none => old.label),
      model := incoming.model,
      updatedAt := incoming.updatedAt,
      inputTokens := incoming.inputTokens,
      outputTokens := incoming.outputTokens,
      totalTokens := incoming.totalTokens,
      inputQuery :=
        (match incoming.inputQuery with
         | some q => if q.length > 0 then some q else old.inputQuery
         | none => old.inputQuery),
      sourcePath :=
        (match incoming.sourcePath with
         | some p => some p
         | none => old.sourcePath) }

def upsertFact (incoming : FactRow) : List FactRow → List FactRow
  | [] => [incoming]
  | r :: rest =>
    if r.source = incoming.source && r.sessionId = incoming.sessionId then
      factConflictUpdate r incoming :: rest
    else r :: upsertFact incoming rest

def upsertIngestFile (row : IngestRow) : List IngestRow → List IngestRow
  | [] => [row]
  | r :: rest =>
    if r.source = row.source && r.filePath = row.filePath then row :: rest
    else r :: upsertIngestFile row rest

/-- The `getIngestedFileState` prepared SELECT. -/
def lookupIngestFile (source filePath : String) : List IngestRow → Option (Int × Int)
  | [] => none
  | r :: rest =>
    if r.source = source && r.filePath = filePath then some (r.mtimeMs, r.sizeBytes)
    else lookupIngestFile source filePath rest

/-- Gregorian date of a day count from 1970-01-01 (Hinnant's
civil-from-days algorithm). -/
def civilFromDays (z0 : Int) : Int × Int × Int :=
  let z := z0 + 719468
  let era := Int.fdiv z 146097
  let doe := z - era * 146097
  let yoe := Int.fdiv (doe - Int.fdiv doe 1460 + Int.fdiv doe 36524 - Int.fdiv doe 146096) 365
  let y := yoe + era * 400
  let doy := doe - (365 * yoe + Int.fdiv yoe 4 - Int.fdiv yoe 100)
  let mp := Int.fdiv (5 * doy + 2) 153
  let d := doy - Int.fdiv (153 * mp + 2) 5 + 1
  let m := mp + (if mp < 10 then 3 else -9)
  (y + (if m ≤ 2 then 1 else 0), m, d)

def pad2 (n : Int) : String :=
  if 0 ≤ n && n < 10 then "0" ++ toString n else toString n

def pad4 (n : Int) : String :=
  if n < 0 then toString n
  else if n < 10 then "000" ++ toString n
  else if n < 100 then "00" ++ toString n
  else if n < 1000 then "0" ++ toString n
  else toString n

/-- `strftime('%Y-%m-%d', updated_at / 1000, 'unixepoch')`: SQLite integer
division truncates toward zero, `strftime` floors seconds into days. The
same UTC day string is produced by
`new Date(ts).toISOString().slice(0, 10)` in `aggregateUsage`. -/
def dayOf (updatedAtMs : Int) : String :=
  let secs := Int.tdiv updatedAtMs 1000
  let days := Int.fdiv secs 86400
  let ymd := civilFromDays days
  pad4 ymd.1 ++ "-" ++ pad2 ymd.2.1 ++ "-" ++ pad2 ymd.2.2

/-- SQLite `TRIM` (strips spaces only, unlike JS `trim`). -/
def sqlTrim (s : String) : String :=
  String.mk (((s.toList.dropWhile (· = ' ')).reverse.dropWhile (· = ' ')).reverse)

/-- `COALESCE(NULLIF(TRIM(model), ''), 'Unknown')`. -/
def dailyModelOf (model : String) : String :=
  let t := sqlTrim model
  if t = "" then "Unknown" else t

/-- Fold one qualifying rollup row into the grouped daily aggregate. -/
def addDaily : List DailyRow → RollupRow → List DailyRow
  | [], r =>
    [{ day := dayOf r.updatedAt, source := r.source, model := dailyModelOf r.model,
       inputTokens := r.inputTokens, outputTokens := r.outputTokens,
       totalTokens := r.totalTokens, sessions := 1 }]
  | b :: bs, r =>
    if b.day = dayOf r.updatedAt && b.source = r.source &&
        b.model = dailyModelOf r.model then
      { b with
          inputTokens := b.inputTokens + r.inputTokens,
          outputTokens := b.outputTokens + r.outputTokens,
          totalTokens := b.totalTokens + r.totalTokens,
          sessions := b.sessions + 1 } :: bs
    else b :: addDaily bs r

/-- server.js `rebuildTokenDaily`: `DELETE FROM token_daily` followed by
the grouped `INSERT ... SELECT` over `session_rollup WHERE total_tokens >
0 GROUP BY day, source, model` (the result is a function of the rollup
table alone). -/
def rebuildTokenDaily (rollup : List RollupRow) : List DailyRow :=
  (rollup.filter (fun r => r.totalTokens > 0)).foldl addDaily []

def dailyLookup (l : List DailyRow) (d s m : String) : Option DailyRow :=
  l.find? (fun b => b.day = d && b.source = s && b.model = m)

def bumpDaily (b : DailyRow) (r : RollupRow) : DailyRow :=
  { b with
      inputTokens := b.inputTokens + r.inputTokens,
      outputTokens := b.outputTokens + r.outputTokens,
      totalTokens := b.totalTokens + r.totalTokens,
      sessions := b.sessions + 1 }

def freshDaily (r : RollupRow) : DailyRow :=
  { day := dayOf r.updatedAt, source := r.source, model := dailyModelOf r.model,
    inputTokens := r.inputTokens, outputTokens := r.outputTokens,
    totalTokens := r.totalTokens, sessions := 1 }

def dailyGroup (rollup : List RollupRow) (d s m : String) : List RollupRow :=
  (rollup.filter (fun r => r.totalTokens > 0)).filter
    (fun r => dayOf r.updatedAt = d && r.source = s && dailyModelOf r.model = m)

def applyBumps (o : Option DailyRow) : List RollupRow -> Option DailyRow
  | [] => o
  | r :: rs =>
    applyBumps (some (match o with | some b => bumpDaily b r | none => freshDaily r)) rs

def keyDistinct (a b : DailyRow) : Prop :=
  ¬(a.day = b.day /\ a.source = b.source /\ a.model = b.model)

/-- The argument shape of the inner `upsertSession` of
`ingestDashboardData`. -/
structure InRow where
  source : String
  sessionId : Option String
  agentId : Option String
  label : Option String
  model : String
  updatedAt : Int
  inputTokens : Int
  outputTokens : Int
  totalTokens : Int
  inputQuery : Option String
  sourcePath : Option String
  deriving Repr, DecidableEq

/-- The inner `upsertSession(row)` of `ingestDashboardData` (`now` is the
pass's `Date.now()`). -/
def upsertSession (now : Int) (st : Store) (row : InRow) : Store :=
  match jsOptStr row.sessionId with
  | none => st
  | some sessionId =>
    if !hasTokenActivity row.totalTokens row.inputTokens row.outputTokens then st
    else if isUnknownZeroNoiseRecord row.model row.totalTokens row.inputTokens
        row.outputTokens then st
    else
      let source := if row.source = "codex" then "codex" else "openclaw"
      let agentId := jsOptStr row.agentId
      let label := jsOptStr row.label
      let model := normalizeModelName row.model
      let updatedAt := toTimestamp row.updatedAt now
      let inputTokens := row.inputTokens
      let outputTokens := row.outputTokens
      let totalTokens := jsOrInt row.totalTokens (inputTokens + outputTokens)
      let inputQuery := normalizeQueryText row.inputQuery 1200
      let sourcePath := jsOptStr row.sourcePath
      { st with
          rollup := upsertRollup
            { source := source, sessionId := sessionId, agentId := agentId,
              model := model, updatedAt := updatedAt, inputTokens := inputTokens,
              outputTokens := outputTokens, totalTokens := totalTokens } st.rollup,
          fact := upsertFact
            { source := source, sessionId := sessionId, agentId := agentId,
              label := label, model := model, updatedAt := updatedAt,
              inputTokens := inputTokens, outputTokens := outputTokens,
              totalTokens := totalTokens, inputQuery := inputQuery,
              sourcePath := sourcePath } st.fact }

/-! ### The ingestion pass (server.js `ingestDashboardData`) -/

/-- A discovered openclaw session file: path, `stat` data and parsed
lines. `mtimeMs` models `Math.round(stat.mtimeMs)` (mtimes are integral in
the embedding). -/
structure OCFile where
  filePath : String
  mtimeMs : Int
  sizeBytes : Int
  lines : List OCLine

/-- One agent together with `listOpenClawSessionFiles(agent.id)`. -/
structure AgentFiles where
  agentId : String
  files : List OCFile

/-- A discovered codex session file. -/
structure CxFile where
  filePath : String
  mtimeMs : Int
  sizeBytes : Int
  lines : List CxLine

/-- Stable insertion; `stableSortBy lt` models `Array.prototype.sort`
(which is stable, hence uniquely determined by the comparator's strict
order `lt`). -/
def stableInsert (lt : α → α → Bool) (x : α) : List α → List α
  | [] => [x]
  | y :: ys => if lt y x then y :: stableInsert lt x ys else x :: y :: ys

def stableSortBy (lt : α → α → Bool) (l : List α) : List α :=
  l.foldr (stableInsert lt) []

def ocFileLt (a b : OCFile) : Bool := a.mtimeMs < b.mtimeMs

def cxFileLt (a b : CxFile) : Bool := a.mtimeMs < b.mtimeMs

/-- The template-string key `agentId:sessionId` of `registryBySession`. -/
def regKeyOf (agentId sessionId : String) : String :=
  agentId ++ ":" ++ sessionId

/-- One step of building `registryBySession` (keep the record with the
newer `updatedAt`; ties go to the later entry). -/
def buildRegMapStep (m : List (String × RegRecord)) (record : RegRecord) :
    List (String × RegRecord) :=
  match jsOptStr record.sessionId with
  | none => m
  | some sid =>
    let key := regKeyOf record.agentId sid
    match m.find? (fun e => e.1 = key) with
    | some existing =>
      if toTimestamp record.updatedAt 0 ≥ toTimestamp existing.2.updatedAt 0 then
        m.map (fun e => if e.1 = key then (key, record) else e)
      else m
    | none => m ++ [(key, record)]

def regLookup (m : List (String × RegRecord)) (key : String) : Option RegRecord :=
  (m.find? (fun e => e.1 = key)).map (fun e => e.2)

/-- View a decoded/merged record as an `upsertSession` argument (the JS
object is passed through unchanged; only `sessionId` is an option here). -/
def parsedToInRow (p : Parsed) : InRow :=
  { source := p.source, sessionId := some p.sessionId, agentId := p.agentId,
    label := p.label, model := p.model, updatedAt := p.updatedAt,
    inputTokens := p.inputTokens, outputTokens := p.outputTokens,
    totalTokens := p.totalTokens, inputQuery := p.inputQuery,
    sourcePath := p.sourcePath }

/-- The body run for an openclaw file that is new or changed: parse,
merge with the registry, upsert, then record the file state. -/
def ocFileIngest (now : Int) (regMap : List (String × RegRecord))
    (agentId : String) (st : Store) (file : OCFile) : Store :=
  let st1 :=
    match parseOpenClawSessionFile now file.filePath agentId file.mtimeMs file.lines with
    | some parsed =>
      let registry := regLookup regMap (regKeyOf agentId parsed.sessionId)
      upsertSession now st (parsedToInRow (mergeOpenClawParsedWithRegistry parsed registry))
    | none => st
  let fileState : IngestRow :=
    { source := "openclaw", filePath := file.filePath, mtimeMs := file.mtimeMs,
      sizeBytes := file.sizeBytes, ingestedAt := now }
  { st1 with ingestFile := upsertIngestFile fileState st1.ingestFile }

/-- One iteration of the openclaw file loop: skip when the recorded
`(mtime_ms, size_bytes)` still matches. -/
def ocFileStep (now : Int) (regMap : List (String × RegRecord)) (agentId : String)
    (st : Store) (file : OCFile) : Store :=
  match lookupIngestFile "openclaw" file.filePath st.ingestFile with
  | some prev =>
    if prev.1 = file.mtimeMs && prev.2 = file.sizeBytes then st
    else ocFileIngest now regMap agentId st file
  | none => ocFileIngest now regMap agentId st file

/-- The registry-driven upsert of the
`for (const record of allSessionRecords)` loop (`inputQuery: null`). -/
def regInRow (record : RegRecord) : InRow :=
  { source := "openclaw", sessionId := record.sessionId,
    agentId := some record.agentId, label := record.label,
    model := record.model, updatedAt := record.updatedAt,
    inputTokens := record.inputTokens, outputTokens := record.outputTokens,
    totalTokens := record.totalTokens, inputQuery := none,
    sourcePath := record.sourcePath }

def cxFileIngest (now : Int) (st : Store) (file : CxFile) : Store :=
  let st1 :=
    match parseCodexSessionFile now file.filePath file.mtimeMs file.lines with
    | some parsed => upsertSession now st (parsedToInRow parsed)
    | none => st
  let fileState : IngestRow :=
    { source := "codex", filePath := file.filePath, mtimeMs := file.mtimeMs,
      sizeBytes := file.sizeBytes, ingestedAt := now }
  { st1 with ingestFile := upsertIngestFile fileState st1.ingestFile }

def cxFileStep (now : Int) (st : Store) (file : CxFile) : Store :=
  match lookupIngestFile "codex" file.filePath st.ingestFile with
  | some prev =>
    if prev.1 = file.mtimeMs && prev.2 = file.sizeBytes then st
    else cxFileIngest now st file
  | none => cxFileIngest now st file

/-- Keep-predicate of the defensive cleanup `DELETE ... WHERE
COALESCE(total_tokens,0) <= 0 AND COALESCE(input_tokens,0) <= 0 AND
COALESCE(output_tokens,0) <= 0` (token columns are NOT NULL). -/
def factAlive (r : FactRow) : Bool :=
  !(r.totalTokens ≤ 0 && r.inputTokens ≤ 0 && r.outputTokens ≤ 0)

def rollupAlive (r : RollupRow) : Bool :=
  !(r.totalTokens ≤ 0 && r.inputTokens ≤ 0 && r.outputTokens ≤ 0)

/-- `SESSION_RETENTION_MS` at its default `SESSION_RETENTION_DAYS = 90`. -/
def defaultRetentionMs : Int := 90 * 24 * 60 * 60 * 1000

/-- server.js `ingestDashboardData`.  Inputs: the retention window
(`SESSION_RETENTION_MS`), the pass's `Date.now()`, the agents with their
discovered session files, the registry records (`allSessionRecords`), the
discovered codex files, and the current store. -/
def ingestDashboardData (retentionMs now : Int) (agents : List AgentFiles)
    (allSessionRecords : List RegRecord) (codexFiles : List CxFile)
    (st : Store) : Store :=
  let registryBySession := allSessionRecords.foldl buildRegMapStep []
  let st := agents.foldl
    (fun s agent =>
      (stableSortBy ocFileLt agent.files).foldl
        (ocFileStep now registryBySession agent.agentId) s) st
  -- Session registry can advance token counters even when jsonl mtime is
  -- unchanged.
  let st := allSessionRecords.foldl (fun s record => upsertSession now s (regInRow record)) st
  let st := (stableSortBy cxFileLt codexFiles).foldl (cxFileStep now) st
  let cutoff := now - retentionMs
  let st := { st with fact := st.fact.filter factAlive }
  let st := { st with rollup := st.rollup.filter rollupAlive }
  let st := { st with fact := st.fact.filter (fun r => !(r.updatedAt < cutoff)) }
  let st := { st with rollup := st.rollup.filter (fun r => !(r.updatedAt < cutoff)) }
  { st with tokenDaily := rebuildTokenDaily st.rollup }

/-! ### The aggregator (server.js `aggregateUsage`)

`relativeDateLabel` formats a date key through `toLocaleDateString`, which
depends on the host locale/timezone; the embedding therefore takes the
labelling function as a parameter. -/

/-- A record as returned by `readSessionPointsFromDb` (the input shape of
`aggregateUsage`). -/
structure UsagePoint where
  source : String
  sessionId : String
  agentId : Option String
  label : Option String
  model : String
  updatedAt : Int
  inputTokens : Int
  outputTokens : Int
  totalTokens : Int
  inputQuery : Option String
  sourcePath : Option String
  deriving Repr, DecidableEq

structure UsageTotals where
  totalTokens : Int
  inputTokens : Int
  outputTokens : Int
  sessions : Int
  deriving Repr, DecidableEq

structure TrendEntry where
  date : String
  label : String
  tokens : Int
  deriving Repr, DecidableEq

structure ModelEntry where
  model : String
  tokens : Int
  deriving Repr, DecidableEq

structure RecentEntry where
  source : String
  sessionId : String
  agentId : Option String
  label : Option String
  model : String
  updatedAt : Int
  totalTokens : Int
  inputTokens : Int
  outputTokens : Int
  inputQuery : Option String
  sourcePath : Option String
  deriving Repr, DecidableEq

structure PointEntry where
  source : String
  sessionId : String
  agentId : Option String
  model : String
  updatedAt : Int
  totalTokens : Int
  inputTokens : Int
  outputTokens : Int
  inputQuery : Option String
  deriving Repr, DecidableEq

structure Usage where
  totals : UsageTotals
  trend : List TrendEntry
  models : List ModelEntry
  recent : List RecentEntry
  points : List PointEntry
  deriving Repr, DecidableEq

/-- The accumulator of `aggregateUsage`'s record loop; `daily` and
`modelDistribution` are JS objects in key-insertion order. -/
structure AggState where
  totals : UsageTotals
  daily : List (String × Int)
  modelDistribution : List (String × Int)
  recent : List RecentEntry
  points : List PointEntry

/-- `obj[key] = (obj[key] || 0) + v` (new string keys append in insertion
order). -/
def bumpAssoc (key : String) (v : Int) : List (String × Int) → List (String × Int)
  | [] => [(key, v)]
  | (k, x) :: rest =>
    if k = key then (k, x + v) :: rest else (k, x) :: bumpAssoc key v rest

def assocGet (m : List (String × Int)) (k : String) : Int :=
  match m.find? (fun e => e.1 = k) with
  | some e => e.2
  | none => 0

/-- `new Date(toTimestamp(...)).toISOString().slice(0, 10)`: the UTC
day. -/
def isoDayOf (ms : Int) : String :=
  let ymd := civilFromDays (Int.fdiv ms 86400000)
  pad4 ymd.1 ++ "-" ++ pad2 ymd.2.1 ++ "-" ++ pad2 ymd.2.2

/-- One iteration of the `for (const record of records)` loop of
`aggregateUsage`. -/
def aggStep (now : Int) (st : AggState) (record : UsagePoint) : AggState :=
  if !hasTokenActivity record.totalTokens record.inputTokens record.outputTokens then st
  else if isUnknownZeroNoiseRecord record.model record.totalTokens
      record.inputTokens record.outputTokens then st
  else
    let totals : UsageTotals :=
      { totalTokens := st.totals.totalTokens + record.totalTokens,
        inputTokens := st.totals.inputTokens + record.inputTokens,
        outputTokens := st.totals.outputTokens + record.outputTokens,
        sessions := st.totals.sessions + 1 }
    let dateKey := isoDayOf (toTimestamp record.updatedAt now)
    let daily := bumpAssoc dateKey record.totalTokens st.daily
    let model := normalizeModelName record.model
    let modelDistribution := bumpAssoc model record.totalTokens st.modelDistribution
    let source := if record.source = "" then "openclaw" else record.source
    let recentEntry : RecentEntry :=
      { source := source, sessionId := record.sessionId, agentId := record.agentId,
        label := record.label, model := model,
        updatedAt := toTimestamp record.updatedAt now,
        totalTokens := record.totalTokens, inputTokens := record.inputTokens,
        outputTokens := record.outputTokens,
        inputQuery := jsOptStr record.inputQuery, sourcePath := record.sourcePath }
    let pointEntry : PointEntry :=
      { source := source, sessionId := record.sessionId, agentId := record.agentId,
        model := model, updatedAt := toTimestamp record.updatedAt now,
        totalTokens := record.totalTokens, inputTokens := record.inputTokens,
        outputTokens := record.outputTokens,
        inputQuery := jsOptStr record.inputQuery }
    { totals := totals, daily := daily, modelDistribution := modelDistribution,
      recent := st.recent ++ [recentEntry], points := st.points ++ [pointEntry] }

/-- `Object.keys(daily).sort(localeCompare).slice(-14).map(...)`. -/
def trendOf (dateLabel : String → String) (daily : List (String × Int)) :
    List TrendEntry :=
  let keys := stableSortBy (fun a b => decide (a < b)) (daily.map (fun e => e.1))
  let keys := keys.drop (keys.length - 14)
  keys.map fun date => { date := date, label := dateLabel date, tokens := assocGet daily date }

/-- server.js `aggregateUsage` (`now` models the `Date.now()` fallback for
records without a positive `updatedAt`). -/
def aggregateUsage (now : Int) (dateLabel : String → String)
    (records : List UsagePoint) : Usage :=
  let st0 : AggState := ⟨⟨0, 0, 0, 0⟩, [], [], [], []⟩
  let st := records.foldl (aggStep now) st0
  { totals := st.totals,
    trend := trendOf dateLabel st.daily,
    models := (stableSortBy (fun a b => b.tokens < a.tokens)
      (st.modelDistribution.map (fun e => ModelEntry.mk e.1 e.2))).take 8,
    recent := (stableSortBy (fun a b => b.updatedAt < a.updatedAt) st.recent).take 12,
    points := stableSortBy (fun a b => a.updatedAt < b.updatedAt) st.points }

/-! ### Concrete inputs used by witnesses and counterexamples -/

def c3Parsed : Parsed :=
  { source := "openclaw", sessionId := "sess-1", agentId := some "a1",
    label := none, model := "claude", updatedAt := 1000, inputTokens := 11,
    outputTokens := 22, totalTokens := 500, inputQuery := none,
    sourcePath := some "/p" }

def c3Reg : RegRecord :=
  { agentId := "a1", sessionId := some "sess-1", label := some "L",
    model := "gpt", updatedAt := 2000, inputTokens := 0, outputTokens := 0,
    totalTokens := 0, sourcePath := some "/r" }

def c5Row : InRow :=
  { source := "openclaw", sessionId := some "s0", agentId := some "a1",
    label := none, model := "Unknown", updatedAt := 1000, inputTokens := 0,
    outputTokens := 0, totalTokens := 0, inputQuery := none, sourcePath := none }

def c5Point : UsagePoint :=
  { source := "openclaw", sessionId := "s0", agentId := some "a1",
    label := none, model := "Unknown", updatedAt := 1000, inputTokens := 0,
    outputTokens := 0, totalTokens := 0, inputQuery := none, sourcePath := none }

def c5LivePoint : UsagePoint :=
  { source := "openclaw", sessionId := "s1", agentId := some "a1",
    label := none, model := "claude", updatedAt := 1700000000000,
    inputTokens := 3, outputTokens := 4, totalTokens := 7, inputQuery := none,
    sourcePath := none }

def c7Input : String := "[Wed 2026-02-18 13:39 GMT+8] 定时任务 - 没错，继续处理"

def c7Actual : String := "定时任务 - 没错，继续处理"

def c6Obj : JSVal := .obj [("token", .str "x")]

/-- `"client_id: ab'cd"` (the apostrophe written by code point). -/
def c6Inline : String := "client_id: ab" ++ String.mk [Char.ofNat 39] ++ "cd"

def c6GoodObj : JSVal :=
  .obj [("token", .str "supersecretvalue"), ("name", .str "x"),
    ("nested", .obj [("api_key", .str "AKIA12345678")])]

def c9OldFact : FactRow :=
  { source := "openclaw", sessionId := "s1", agentId := some "a1",
    label := some "L0", model := "m0", updatedAt := 500, inputTokens := 1,
    outputTokens := 2, totalTokens := 3, inputQuery := some "fix the bug",
    sourcePath := some "/old" }

def c9OldRollup : RollupRow :=
  { source := "openclaw", sessionId := "s1", agentId := some "a1",
    model := "m0", updatedAt := 500, inputTokens := 1, outputTokens := 2,
    totalTokens := 3 }

def c9Store : Store := ⟨[c9OldRollup], [c9OldFact], [], []⟩

/-- An update whose incoming `inputQuery` is a non-empty string that the
sanitizer reduces to nothing. -/
def c9Row : InRow :=
  { source := "openclaw", sessionId := some "s1", agentId := some "a1",
    label := none, model := "m1", updatedAt := 600, inputTokens := 4,
    outputTokens := 5, totalTokens := 9,
    inputQuery := some "conversation_label: abc", sourcePath := none }

/-- A registry-style update: same key, null `inputQuery`. -/
def c9RegRow : InRow :=
  { source := "openclaw", sessionId := some "s1", agentId := some "a1",
    label := some "L1", model := "m1", updatedAt := 600, inputTokens := 4,
    outputTokens := 5, totalTokens := 9, inputQuery := none,
    sourcePath := some "/reg" }

/-- The token contribution of one openclaw log line: the per-assistant-
message accumulation amounts of `parseOpenClawSessionFile` (input =
reported input + cacheRead + cacheWrite, output = reported output, total =
reported nonzero total or input + output), zero for every other line. -/
def ocLineUsage (l : OCLine) : Int × Int × Int :=
  match l with
  | .garbage => (0, 0, 0)
  | .row _ ty _ _ message =>
    let m := message.getD emptyOCMessage
    if ty = some "message" && m.role = some "assistant" then
      let usage := m.usage.getD emptyOCUsage
      let i := optNum usage.input + optNum usage.cacheRead + optNum usage.cacheWrite
      let o := optNum usage.output
      (i, o, jsOrInt (optNum usage.totalTokens) (i + o))
    else (0, 0, 0)

/-- The sums of `ocLineUsage` over a whole file, as the spec describes the
decoded token counts. -/
def ocAssistantUsageSums : List OCLine → Int × Int × Int
  | [] => (0, 0, 0)
  | l :: rest =>
    ((ocLineUsage l).1 + (ocAssistantUsageSums rest).1,
     (ocLineUsage l).2.1 + (ocAssistantUsageSums rest).2.1,
     (ocLineUsage l).2.2 + (ocAssistantUsageSums rest).2.2)

/-- The token values reported by one codex log line: `some` of the
`token_count` payload's cumulative counters (total = reported nonzero
total or input + output), `none` for every other line. -/
def cxLineUsage (l : CxLine) : Option (Int × Int × Int) :=
  match l with
  | .garbage => none
  | .row _ ty payload =>
    let p := payload.getD emptyCxPayload
    if ty = some "event_msg" && p.type = some "token_count" then
      let total := (p.info.getD ⟨none⟩).total_token_usage.getD ⟨none, none, none⟩
      let i := optNum total.input_tokens
      let o := optNum total.output_tokens
      some (i, o, jsOrInt (optNum total.total_tokens) (i + o))
    else none

/-- The last `token_count` report in a codex file, if any. -/
def cxLastUsage : List CxLine → Option (Int × Int × Int)
  | [] => none
  | l :: rest =>
    match cxLastUsage rest with
    | some v => some v
    | none => cxLineUsage l

/-- The claim's reading of the codex decoder — token counts as *sums*
over all usage-report records — written out from the claim's words for
comparison with `parseCodexSessionFile` (which instead overwrites). -/
def claimedCxUsageSums : List CxLine → Int × Int × Int
  | [] => (0, 0, 0)
  | l :: rest =>
    let u := (cxLineUsage l).getD (0, 0, 0)
    (u.1 + (claimedCxUsageSums rest).1, u.2.1 + (claimedCxUsageSums rest).2.1,
     u.2.2 + (claimedCxUsageSums rest).2.2)

def c8OCLines : List OCLine :=
  [OCLine.row (some 100) (some "session") (some "sess-oc") none none,
   OCLine.row (some 150) (some "message") none none
     (some ⟨some "assistant", none, some ⟨some 10, some 2, some 3, some 5, some 0⟩,
       some 150, some "m5", none⟩),
   OCLine.garbage,
   OCLine.row (some 200) (some "message") none none
     (some ⟨some "assistant", none, some ⟨some 1, none, none, some 2, some 7⟩,
       some 200, none, some "stop"⟩)]

/-- A codex file whose two `token_count` reports both say `(10, 5, 15)`:
the decoder keeps `15`, the claimed sum would be `30`. -/
def c8CxLines : List CxLine :=
  [CxLine.row (some 100) (some "session_meta")
     (some ⟨some "sess-cx", some 100, none, none, none, none, none⟩),
   CxLine.row (some 200) (some "event_msg")
     (some ⟨none, none, none, some "token_count", none, none,
       some ⟨some ⟨some 10, some 5, some 15⟩⟩⟩),
   CxLine.row (some 300) (some "event_msg")
     (some ⟨none, none, none, some "token_count", none, none,
       some ⟨some ⟨some 10, some 5, some 15⟩⟩⟩)]

def c8OCParsed : Parsed :=
  { source := "openclaw", sessionId := "sess-oc", agentId := some "a1",
    label := some "stop", model := "m5", updatedAt := 200, inputTokens := 16,
    outputTokens := 7, totalTokens := 27, inputQuery := none,
    sourcePath := some "f.jsonl" }

def c8CxParsed : Parsed :=
  { source := "codex", sessionId := "sess-cx", agentId := some "codex",
    label := some "Codex local session", model := "Codex Local",
    updatedAt := 300, inputTokens := 10, outputTokens := 5, totalTokens := 15,
    inputQuery := none, sourcePath := some "/tmp/x.jsonl" }

def c1Now : Int := 1760000000000

def c1OldTs : Int := c1Now - 100 * 24 * 60 * 60 * 1000

def c1Rollup : RollupRow :=
  { source := "openclaw", sessionId := "s1", agentId := some "main",
    model := "claude-sonnet", updatedAt := c1OldTs,
    inputTokens := 10, outputTokens := 5, totalTokens := 15 }

def c1Fact : FactRow :=
  { source := "openclaw", sessionId := "s1", agentId := some "main",
    label := none, model := "claude-sonnet", updatedAt := c1OldTs,
    inputTokens := 10, outputTokens := 5, totalTokens := 15,
    inputQuery := none, sourcePath := none }

def c1Daily : DailyRow :=
  { day := dayOf c1OldTs, source := "openclaw", model := "claude-sonnet",
    inputTokens := 10, outputTokens := 5, totalTokens := 15, sessions := 1 }

def c1Store : Store :=
  { rollup := [c1Rollup], fact := [c1Fact], tokenDaily := [c1Daily], ingestFile := [] }

/-! ## Theorems settling the claims -/

/-- A positive value passes `toTimestamp` unchanged; `0` maps to the
fallback `0`. -/
theorem toTimestamp_zero_fb (x : Int) (hx : 0 ≤ x) : toTimestamp x 0 = x := by
  unfold toTimestamp
  split <;> omega

/-- **C3** (confirmed): reconciliation keeps each parsed token count when
the corresponding registry count is zero or negative and replaces it when
the registry count is strictly positive; `updatedAt` becomes the maximum
of both sides' timestamps; in particular parsed `totalTokens = 500`
against registry `0` stays `500`, and registry `700` wins. -/
theorem C3_merge_precedence (parsed : Parsed) (reg : RegRecord)
    (hp : 0 ≤ parsed.updatedAt) (hr : 0 ≤ reg.updatedAt) :
    (mergeOpenClawParsedWithRegistry parsed (some reg)).inputTokens =
      (if 0 < reg.inputTokens then reg.inputTokens else parsed.inputTokens) ∧
    (mergeOpenClawParsedWithRegistry parsed (some reg)).outputTokens =
      (if 0 < reg.outputTokens then reg.outputTokens else parsed.outputTokens) ∧
    (mergeOpenClawParsedWithRegistry parsed (some reg)).totalTokens =
      (if 0 < reg.totalTokens then reg.totalTokens else parsed.totalTokens) ∧
    (mergeOpenClawParsedWithRegistry parsed (some reg)).updatedAt =
      max reg.updatedAt parsed.updatedAt ∧
    (parsed.totalTokens = 500 → reg.totalTokens = 0 →
      (mergeOpenClawParsedWithRegistry parsed (some reg)).totalTokens = 500) ∧
    (reg.totalTokens = 700 →
      (mergeOpenClawParsedWithRegistry parsed (some reg)).totalTokens = 700) := by
  simp only [mergeOpenClawParsedWithRegistry, toTimestamp_zero_fb parsed.updatedAt hp,
    toTimestamp_zero_fb reg.updatedAt hr]
  refine ⟨by trivial, by trivial, by trivial, by trivial, ?_, ?_⟩
  · intro h5 h0
    simp [h5, h0]
  · intro h7
    simp [h7]

/-- Witness for C3 at a concrete parsed/registry pair. -/
theorem C3_merge_precedence_witness :
    (0 : Int) ≤ c3Parsed.updatedAt ∧ (0 : Int) ≤ c3Reg.updatedAt ∧
    ((mergeOpenClawParsedWithRegistry c3Parsed (some c3Reg)).inputTokens =
      (if 0 < c3Reg.inputTokens then c3Reg.inputTokens else c3Parsed.inputTokens) ∧
    (mergeOpenClawParsedWithRegistry c3Parsed (some c3Reg)).outputTokens =
      (if 0 < c3Reg.outputTokens then c3Reg.outputTokens else c3Parsed.outputTokens) ∧
    (mergeOpenClawParsedWithRegistry c3Parsed (some c3Reg)).totalTokens =
      (if 0 < c3Reg.totalTokens then c3Reg.totalTokens else c3Parsed.totalTokens) ∧
    (mergeOpenClawParsedWithRegistry c3Parsed (some c3Reg)).updatedAt =
      max c3Reg.updatedAt c3Parsed.updatedAt ∧
    (c3Parsed.totalTokens = 500 → c3Reg.totalTokens = 0 →
      (mergeOpenClawParsedWithRegistry c3Parsed (some c3Reg)).totalTokens = 500) ∧
    (c3Reg.totalTokens = 700 →
      (mergeOpenClawParsedWithRegistry c3Parsed (some c3Reg)).totalTokens = 700)) :=
  ⟨by decide, by decide, C3_merge_precedence c3Parsed c3Reg (by decide) (by decide)⟩

/-- **C10** (confirmed): `upsertSession` skips every record whose three
token fields are all non-positive (its model notwithstanding), and after
an ingestion pass every fact and rollup row has a strictly positive token
field. -/
theorem C10_nonpositive_rejected :
    (∀ (now : Int) (st : Store) (row : InRow),
      row.totalTokens ≤ 0 → row.inputTokens ≤ 0 → row.outputTokens ≤ 0 →
      upsertSession now st row = st) ∧
    (∀ (retentionMs now : Int) (agents : List AgentFiles)
      (regs : List RegRecord) (cx : List CxFile) (st : Store),
      (∀ r ∈ (ingestDashboardData retentionMs now agents regs cx st).fact,
        0 < r.totalTokens ∨ 0 < r.inputTokens ∨ 0 < r.outputTokens) ∧
      (∀ r ∈ (ingestDashboardData retentionMs now agents regs cx st).rollup,
        0 < r.totalTokens ∨ 0 < r.inputTokens ∨ 0 < r.outputTokens)) := by
  constructor
  · intro now st row h1 h2 h3
    unfold upsertSession
    cases hs : jsOptStr row.sessionId with
    | none => rfl
    | some sid =>
      have hact : hasTokenActivity row.totalTokens row.inputTokens row.outputTokens = false := by
        simp [hasTokenActivity]
        omega
      simp [hact]
  · intro retentionMs now agents regs cx st
    constructor
    · intro r hr
      simp only [ingestDashboardData] at hr
      rw [List.mem_filter] at hr
      rw [List.mem_filter] at hr
      have h := hr.1.2
      simp [factAlive] at h
      omega
    · intro r hr
      simp only [ingestDashboardData] at hr
      rw [List.mem_filter] at hr
      rw [List.mem_filter] at hr
      have h := hr.1.2
      simp [rollupAlive] at h
      omega

/-- Witness for C10 at concrete inputs. -/
theorem C10_nonpositive_rejected_witness :
    (upsertSession 5 ⟨[], [], [], []⟩ c5Row = ⟨[], [], [], []⟩) ∧
    (∀ r ∈ (ingestDashboardData defaultRetentionMs 5 [] [] [] ⟨[], [], [], []⟩).fact,
      0 < r.totalTokens ∨ 0 < r.inputTokens ∨ 0 < r.outputTokens) :=
  ⟨C10_nonpositive_rejected.1 5 ⟨[], [], [], []⟩ c5Row (by decide) (by decide) (by decide),
   (C10_nonpositive_rejected.2 defaultRetentionMs 5 [] [] [] ⟨[], [], [], []⟩).1⟩

/-- **C5** (confirmed): a record with all three token counts zero and
model `"Unknown"` is never persisted by `upsertSession` and contributes
nothing to any part of `aggregateUsage`'s output. -/
theorem C5_noise_excluded :
    (∀ (now : Int) (st : Store) (row : InRow),
      row.inputTokens = 0 → row.outputTokens = 0 → row.totalTokens = 0 →
      normalizeModelName row.model = "Unknown" →
      upsertSession now st row = st) ∧
    (∀ (now : Int) (dateLabel : String → String) (pre post : List UsagePoint)
      (record : UsagePoint),
      record.inputTokens = 0 → record.outputTokens = 0 → record.totalTokens = 0 →
      normalizeModelName record.model = "Unknown" →
      aggregateUsage now dateLabel (pre ++ record :: post) =
        aggregateUsage now dateLabel (pre ++ post)) := by
  constructor
  · intro now st row h1 h2 h3 _
    unfold upsertSession
    cases hs : jsOptStr row.sessionId with
    | none => rfl
    | some sid =>
      have hact : hasTokenActivity row.totalTokens row.inputTokens row.outputTokens = false := by
        simp [hasTokenActivity, h1, h2, h3]
      simp [hact]
  · intro now dateLabel pre post record h1 h2 h3 _
    have hskip : ∀ s, aggStep now s record = s := by
      intro s
      unfold aggStep
      have hact : hasTokenActivity record.totalTokens record.inputTokens record.outputTokens = false := by
        simp [hasTokenActivity, h1, h2, h3]
      simp [hact]
    simp [aggregateUsage, List.foldl_append, hskip]

/-- Witness for C5: dropping the concrete noise record from a concrete
list leaves the aggregate unchanged, and the upsert is the identity. -/
theorem C5_noise_excluded_witness :
    (upsertSession 5 ⟨[], [], [], []⟩ c5Row = ⟨[], [], [], []⟩) ∧
    aggregateUsage 99 (fun d => d) ([c5LivePoint] ++ c5Point :: []) =
      aggregateUsage 99 (fun d => d) ([c5LivePoint] ++ []) :=
  ⟨C5_noise_excluded.1 5 ⟨[], [], [], []⟩ c5Row (by decide) (by decide) (by decide)
      (by decide),
   C5_noise_excluded.2 99 (fun d => d) [c5LivePoint] [] c5Point (by decide)
      (by decide) (by decide) (by decide)⟩

/-- **C7** counterexample: on the claimed input the normalizer returns
`"定时任务 - 没错，继续处理"`, which does not begin with
`"没错，继续处理"` — the bracketed `[Wed 2026-02-18 13:39 GMT+8]`
timestamp is removed, but the `定时任务 - ` label survives (no rule
matches it: the bracket-keyword rule needs the keyword inside the
brackets, the `\d{1,2}:\d{2}\s*定时任务` rule needs a time outside them,
and the `没错` cut requires a metadata-looking prefix). -/
theorem C7_normalize_counterexample :
    normalizeQueryText (some c7Input) 1200 = some c7Actual ∧
    isLeadOf "没错，继续处理".toList c7Actual.toList = false := by
  constructor
  · decide
  · decide

/-- **C7** as amended (corrected): the normalizer strips the bracketed
timestamp prefix but keeps the scheduled-task label, returning exactly
`"定时任务 - 没错，继续处理"`; the user text `"没错，继续处理"` is its
suffix, not its start. -/
theorem C7_normalize_amended :
    normalizeQueryText (some c7Input) 1200 = some c7Actual ∧
    isLeadOf "没错，继续处理".toList.reverse c7Actual.toList.reverse = true ∧
    isLeadOf "定时任务".toList c7Actual.toList = true := by
  refine ⟨by decide, by decide, by decide⟩

/-! ### C6: redaction idempotence -/

theorem maskSecret_ne8 (s : String) (h : ¬ s.length ≤ 8) :
    maskSecret s = String.mk (s.toList.take 3) ++ "***" ++
      String.mk (s.toList.drop (s.toList.length - 3)) := by
  unfold maskSecret
  simp [h]

theorem maskSecret_toList (s : String) (h : ¬ s.length ≤ 8) :
    (maskSecret s).toList =
      (s.toList.take 3 ++ "***".toList) ++ s.toList.drop (s.toList.length - 3) := by
  rw [maskSecret_ne8 s h]
  show ((String.mk (s.toList.take 3) ++ "***") ++
      String.mk (s.toList.drop (s.toList.length - 3))).data = _
  rw [String.data_append, String.data_append]
  rfl

theorem maskSecret_length (s : String) (h : ¬ s.length ≤ 8) :
    (maskSecret s).length = 9 := by
  have h9 : 9 ≤ s.toList.length := by
    have hh : s.length = s.toList.length := rfl
    omega
  have ht := maskSecret_toList s h
  have hl : (maskSecret s).length = (maskSecret s).toList.length := rfl
  rw [hl, ht]
  have hstar : ("***".toList).length = 3 := rfl
  simp only [List.length_append, List.length_take, List.length_drop, hstar]
  omega

/-- The masked form of a string of length at least 9 is a `maskSecret`
fixed point. -/
theorem maskSecret_fix (s : String) (h : 9 ≤ s.length) :
    maskSecret (maskSecret s) = maskSecret s := by
  have h8 : ¬ s.length ≤ 8 := by omega
  have hm8 : ¬ (maskSecret s).length ≤ 8 := by rw [maskSecret_length s h8]; omega
  have hslen : 9 ≤ s.toList.length := by
    have hh : s.length = s.toList.length := rfl
    omega
  have hstar : ("***".toList).length = 3 := rfl
  have htake : (s.toList.take 3).length = 3 := by
    rw [List.length_take]; omega
  have hdrop : (s.toList.drop (s.toList.length - 3)).length = 3 := by
    rw [List.length_drop]; omega
  rw [maskSecret_ne8 (maskSecret s) hm8, maskSecret_toList s h8]
  have e1 : ((s.toList.take 3 ++ "***".toList) ++ s.toList.drop (s.toList.length - 3)).take 3
      = s.toList.take 3 := by
    rw [List.take_append_of_le_length (by rw [List.length_append]; omega)]
    rw [List.take_append_of_le_length (by omega)]
    exact List.take_of_length_le (by omega)
  have e2len : ((s.toList.take 3 ++ "***".toList) ++ s.toList.drop (s.toList.length - 3)).length - 3
      = (s.toList.take 3 ++ "***".toList).length := by
    simp only [List.length_append, htake, hdrop, hstar]
  have e2 : ((s.toList.take 3 ++ "***".toList) ++ s.toList.drop (s.toList.length - 3)).drop
      (((s.toList.take 3 ++ "***".toList) ++ s.toList.drop (s.toList.length - 3)).length - 3)
      = s.toList.drop (s.toList.length - 3) := by
    rw [e2len, List.drop_left]
  rw [e1, e2, maskSecret_ne8 s h8]

mutual

theorem redactObject_idem (v : JSVal) (h : sensLenOk v = true) :
    redactObject (redactObject v) = redactObject v := by
  cases v with
  | null => rfl
  | bool b => rfl
  | num n => rfl
  | str s => rfl
  | arr elems =>
    have h' : sensLenOkElems elems = true := h
    simp only [redactObject]
    rw [redactObjectElems_idem elems h']
  | obj fields =>
    have h' : sensLenOkFields fields = true := h
    simp only [redactObject]
    rw [redactObjectFields_idem fields h']

theorem redactObjectElems_idem (l : List JSVal) (h : sensLenOkElems l = true) :
    redactObjectElems (redactObjectElems l) = redactObjectElems l := by
  cases l with
  | nil => rfl
  | cons v rest =>
    have h' : sensLenOk v = true ∧ sensLenOkElems rest = true := by
      have hh : (sensLenOk v && sensLenOkElems rest) = true := h
      exact (Bool.and_eq_true _ _).mp hh
    simp only [redactObjectElems]
    rw [redactObject_idem v h'.1, redactObjectElems_idem rest h'.2]

theorem redactObjectFields_idem (l : List (String × JSVal))
    (h : sensLenOkFields l = true) :
    redactObjectFields (redactObjectFields l) = redactObjectFields l := by
  cases l with
  | nil => rfl
  | cons kv rest =>
    obtain ⟨k, v⟩ := kv
    have h' : (if reTest sensitiveKeyRe k then decide (9 ≤ (jsToString v).length)
        else sensLenOk v) = true ∧ sensLenOkFields rest = true := by
      have hh : ((if reTest sensitiveKeyRe k then decide (9 ≤ (jsToString v).length)
        else sensLenOk v) && sensLenOkFields rest) = true := h
      exact (Bool.and_eq_true _ _).mp hh
    by_cases hs : reTest sensitiveKeyRe k = true
    · have h9 : 9 ≤ (jsToString v).length := by
        have hx := h'.1
        rw [if_pos hs] at hx
        exact of_decide_eq_true hx
      simp only [redactObjectFields, hs, if_true, jsToString]
      rw [maskSecret_fix _ h9, redactObjectFields_idem rest h'.2]
    · have hs' : reTest sensitiveKeyRe k = false := by
        revert hs
        cases reTest sensitiveKeyRe k <;> simp
      have hv : sensLenOk v = true := by
        have hx := h'.1
        rwa [if_neg hs] at hx
      simp only [redactObjectFields, hs', Bool.false_eq_true, if_false]
      rw [redactObject_idem v hv, redactObjectFields_idem rest h'.2]

end

/-- **C6** counterexample: neither redaction is idempotent as claimed.
A second structured pass re-masks `"[REDACTED]"` (10 characters) into
`"[RE***ED]"`, and a second inline pass re-matches the key/value rule on
`"client_id: [REDACTED]cd"` (the first pass consumed `ab'` of
`"client_id: ab'cd"`, leaving residual text adjacent to the marker). -/
theorem C6_redact_counterexample :
    redactObject (redactObject c6Obj) ≠ redactObject c6Obj ∧
    redactInline (redactInline c6Inline) ≠ redactInline c6Inline := by
  constructor
  · have e1 : redactObject c6Obj = JSVal.obj [("token", JSVal.str "[REDACTED]")] := by rfl
    have e2 : redactObject (redactObject c6Obj) =
        JSVal.obj [("token", JSVal.str "[RE***ED]")] := by rfl
    rw [e2, e1]
    simp
  · decide

/-- **C6** as amended (corrected): structured redaction applied twice
equals applying it once for every value whose sensitive-key scalars
stringify to at least 9 characters (their masks `xxx***yyy` are
`maskSecret` fixed points); outside that class — and for inline redaction
in general — idempotence fails as `C6_redact_counterexample` shows. -/
theorem C6_redact_amended (v : JSVal) (h : sensLenOk v = true) :
    redactObject (redactObject v) = redactObject v :=
  redactObject_idem v h

/-- Witness for the amended C6 at a concrete nested object. -/
theorem C6_redact_amended_witness :
    sensLenOk c6GoodObj = true ∧
    redactObject (redactObject c6GoodObj) = redactObject c6GoodObj :=
  ⟨by decide, C6_redact_amended c6GoodObj (by decide)⟩

/-! ### C9: upsert conflict semantics -/

theorem strLenPos (s : String) (h : s ≠ "") : 0 < s.length := by
  obtain ⟨data⟩ := s
  cases data with
  | nil => exact absurd (by decide) h
  | cons c cs => simp [String.length]

/-- The sanitizer never returns the empty string. -/
theorem normalizeQueryFinish_pos (m : Nat) (c : String) (q : String)
    (h : normalizeQueryFinish m c = some q) : 0 < q.length := by
  simp only [normalizeQueryFinish] at h
  split at h
  · exact absurd h (by simp)
  · split at h
    · exact absurd h (by simp)
    · split at h
      · rename_i hne _
        have hq := Option.some.inj h
        subst hq
        exact strLenPos _ hne
      · have hq := Option.some.inj h
        subst hq
        rw [String.length_append]
        have h1 : ("…" : String).length = 1 := rfl
        omega

theorem normalizeQueryText_nullish :
    normalizeQueryText none 1200 = none ∧ normalizeQueryText (some "") 1200 = none := by
  constructor <;> decide

/-- An `ON CONFLICT` upsert into the rollup table rewrites the conflicted
row with the incoming row, in place. -/
theorem upsertRollup_found (incoming : RollupRow) (pre post : List RollupRow)
    (old : RollupRow)
    (hpre : ∀ r ∈ pre, ¬(r.source = incoming.source ∧ r.sessionId = incoming.sessionId))
    (hold : old.source = incoming.source ∧ old.sessionId = incoming.sessionId) :
    upsertRollup incoming (pre ++ old :: post) = pre ++ incoming :: post := by
  induction pre with
  | nil =>
    simp only [List.nil_append, upsertRollup]
    rw [if_pos]
    simp [hold.1, hold.2]
  | cons r rs ih =>
    have hr := hpre r (List.mem_cons_self r rs)
    simp only [List.cons_append, upsertRollup]
    rw [if_neg (by simpa using hr)]
    exact congrArg (List.cons r) (ih (fun x hx => hpre x (List.mem_cons_of_mem r hx)))

/-- An `ON CONFLICT` upsert into the fact table applies the
`factConflictUpdate` clause to the conflicted row, in place. -/
theorem upsertFact_found (incoming : FactRow) (pre post : List FactRow)
    (old : FactRow)
    (hpre : ∀ r ∈ pre, ¬(r.source = incoming.source ∧ r.sessionId = incoming.sessionId))
    (hold : old.source = incoming.source ∧ old.sessionId = incoming.sessionId) :
    upsertFact incoming (pre ++ old :: post) =
      pre ++ factConflictUpdate old incoming :: post := by
  induction pre with
  | nil =>
    simp only [List.nil_append, upsertFact]
    rw [if_pos]
    simp [hold.1, hold.2]
  | cons r rs ih =>
    have hr := hpre r (List.mem_cons_self r rs)
    simp only [List.cons_append, upsertFact]
    rw [if_neg (by simpa using hr)]
    exact congrArg (List.cons r) (ih (fun x hx => hpre x (List.mem_cons_of_mem r hx)))

/-- **C9** counterexample: the incoming `inputQuery` of `c9Row` is the
non-empty, non-null string `"conversation_label: abc"`, yet the stored
query text is left unchanged (the sanitizer reduces the incoming text to
nothing) — contradicting "overwrites all non-key fields except ...
whenever the corresponding incoming value is null or empty". -/
theorem C9_upsert_conflict_counterexample :
    c9Row.inputQuery = some "conversation_label: abc" ∧
    ("conversation_label: abc" : String) ≠ "" ∧
    (upsertSession 1000 c9Store c9Row).fact.map (fun r => r.inputQuery) =
      [some "fix the bug"] := by
  refine ⟨rfl, by decide, by decide⟩

/-- **C9** as amended (corrected): on a conflicting upsert the rollup row
is fully overwritten with the incoming values; the fact row overwrites
`agent_id`, `model`, `updated_at` and the token counts, keeps `label` and
`source_path` exactly when the incoming value is null or empty, and stores
as `input_query` the *sanitized* incoming text — keeping the previous text
whenever the incoming query is null, empty, or sanitizes to nothing, so a
registry-only update (null `inputQuery`) never blanks stored query
text. -/
theorem C9_upsert_conflict_amended
    (now : Int) (st : Store) (row : InRow) (sid : String)
    (fpre fpost : List FactRow) (fOld : FactRow)
    (rpre rpost : List RollupRow) (rOld : RollupRow)
    (hsid : jsOptStr row.sessionId = some sid)
    (hact : hasTokenActivity row.totalTokens row.inputTokens row.outputTokens = true)
    (hfact : st.fact = fpre ++ fOld :: fpost)
    (hroll : st.rollup = rpre ++ rOld :: rpost)
    (hfkey : fOld.source = (if row.source = "codex" then "codex" else "openclaw") ∧
      fOld.sessionId = sid)
    (hrkey : rOld.source = (if row.source = "codex" then "codex" else "openclaw") ∧
      rOld.sessionId = sid)
    (hfpre : ∀ r ∈ fpre,
      ¬(r.source = (if row.source = "codex" then "codex" else "openclaw") ∧
        r.sessionId = sid))
    (hrpre : ∀ r ∈ rpre,
      ¬(r.source = (if row.source = "codex" then "codex" else "openclaw") ∧
        r.sessionId = sid)) :
    (upsertSession now st row).rollup = rpre ++
      { source := (if row.source = "codex" then "codex" else "openclaw"),
        sessionId := sid, agentId := jsOptStr row.agentId,
        model := normalizeModelName row.model,
        updatedAt := toTimestamp row.updatedAt now,
        inputTokens := row.inputTokens, outputTokens := row.outputTokens,
        totalTokens := jsOrInt row.totalTokens (row.inputTokens + row.outputTokens) } :: rpost ∧
    (∃ fNew, (upsertSession now st row).fact = fpre ++ fNew :: fpost ∧
      fNew.agentId = jsOptStr row.agentId ∧
      fNew.model = normalizeModelName row.model ∧
      fNew.updatedAt = toTimestamp row.updatedAt now ∧
      fNew.inputTokens = row.inputTokens ∧
      fNew.outputTokens = row.outputTokens ∧
      fNew.totalTokens = jsOrInt row.totalTokens (row.inputTokens + row.outputTokens) ∧
      ((row.label = none ∨ row.label = some "") → fNew.label = fOld.label) ∧
      (∀ l, row.label = some l → l ≠ "" → fNew.label = some l) ∧
      ((row.sourcePath = none ∨ row.sourcePath = some "") →
        fNew.sourcePath = fOld.sourcePath) ∧
      (∀ p, row.sourcePath = some p → p ≠ "" → fNew.sourcePath = some p) ∧
      ((row.inputQuery = none ∨ row.inputQuery = some "") →
        fNew.inputQuery = fOld.inputQuery) ∧
      fNew.inputQuery = (match normalizeQueryText row.inputQuery 1200 with
        | some q => some q
        | none => fOld.inputQuery)) := by
  have hnoise : isUnknownZeroNoiseRecord row.model row.totalTokens row.inputTokens
      row.outputTokens = false := by
    simp [isUnknownZeroNoiseRecord, hact]
  simp only [upsertSession, hsid, hact, hnoise, Bool.not_true, Bool.false_eq_true,
    if_false]
  rw [hfact, hroll]
  rw [upsertRollup_found _ _ _ _ (by simpa using hrpre) (by simpa using hrkey)]
  rw [upsertFact_found _ _ _ _ (by simpa using hfpre) (by simpa using hfkey)]
  refine ⟨rfl, _, rfl, ?_⟩
  simp only [factConflictUpdate]
  refine ⟨by trivial, by trivial, by trivial, by trivial, by trivial, by trivial,
    ?_, ?_, ?_, ?_, ?_, ?_⟩
  · rintro (hl | hl) <;> simp [hl, jsOptStr]
  · intro l hl hne
    simp [hl, jsOptStr, hne]
  · rintro (hp | hp) <;> simp [hp, jsOptStr]
  · intro p hp hne
    simp [hp, jsOptStr, hne]
  · rintro (hq | hq) <;>
      simp [hq, normalizeQueryText_nullish.1, normalizeQueryText_nullish.2]
  · cases hnq : normalizeQueryText row.inputQuery 1200 with
    | none => simp
    | some q =>
      have hpos := normalizeQueryFinish_pos 1200 (normalizeQueryCompact row.inputQuery) q hnq
      simp [hpos]

/-- Witness for the amended C9: a registry-style update with null
`inputQuery` leaves the stored query text unchanged. -/
theorem C9_upsert_conflict_amended_witness :
    ∃ fNew, (upsertSession 1000 c9Store c9RegRow).fact = [] ++ fNew :: [] ∧
      fNew.inputQuery = c9OldFact.inputQuery := by
  obtain ⟨-, fNew, hfact, -, -, -, -, -, -, -, -, -, -, hnull, -⟩ :=
    C9_upsert_conflict_amended 1000 c9Store c9RegRow "s1" [] [] c9OldFact [] []
      c9OldRollup (by decide) (by decide) rfl rfl (by decide) (by decide)
      (by simp) (by simp)
  exact ⟨fNew, hfact, hnull (Or.inl rfl)⟩

/-! ### C8: decoder token accumulation -/

set_option maxRecDepth 100000 in
/-- One openclaw line changes the running token counters by exactly its
`ocLineUsage` contribution. -/
theorem ocLineStep_tokens (st : OCState) (l : OCLine) :
    (ocLineStep st l).inputTokens = st.inputTokens + (ocLineUsage l).1 ∧
    (ocLineStep st l).outputTokens = st.outputTokens + (ocLineUsage l).2.1 ∧
    (ocLineStep st l).totalTokens = st.totalTokens + (ocLineUsage l).2.2 := by
  cases l with
  | garbage =>
    refine ⟨?_, ?_, ?_⟩ <;> simp [ocLineStep, ocLineUsage]
  | row ts ty id modelId message =>
    simp only [ocLineStep]
    by_cases h1 : ty = some "session"
    · rw [if_pos h1]
      cases jsOptStr id <;> simp [ocLineUsage, h1]
    · rw [if_neg h1]
      by_cases h2 : ty = some "model_change"
      · rw [if_pos h2]
        cases jsOptStr modelId <;> simp [ocLineUsage, h2]
      · rw [if_neg h2]
        by_cases h3 : ty = some "message"
        · rw [if_neg (by simp [h3])]
          by_cases h4 : (message.getD emptyOCMessage).role = some "user"
          · rw [if_pos h4]
            cases hq : normalizeQueryText
                (some (extractTextFromContent (message.getD emptyOCMessage).content)) 1200 <;>
              simp [ocLineUsage, h4]
          · rw [if_neg h4]
            by_cases h5 : (message.getD emptyOCMessage).role = some "assistant"
            · rw [if_neg (by simp [h5])]
              cases jsOptStr (message.getD emptyOCMessage).model <;>
                · by_cases h6 : st.label = none
                  · cases jsOptStr (message.getD emptyOCMessage).stopReason <;>
                      simp [ocLineUsage, h3, h5, h6]
                  · simp [ocLineUsage, h3, h5, h6]
            · rw [if_pos h5]
              simp [ocLineUsage, h5]
        · rw [if_pos h3]
          simp [ocLineUsage, h3]

/-- The openclaw line loop accumulates: final counters = initial counters
plus the file's assistant-usage sums. -/
theorem ocFold_tokens (lines : List OCLine) (st : OCState) :
    (lines.foldl ocLineStep st).inputTokens
        = st.inputTokens + (ocAssistantUsageSums lines).1 ∧
    (lines.foldl ocLineStep st).outputTokens
        = st.outputTokens + (ocAssistantUsageSums lines).2.1 ∧
    (lines.foldl ocLineStep st).totalTokens
        = st.totalTokens + (ocAssistantUsageSums lines).2.2 := by
  induction lines generalizing st with
  | nil => simp [ocAssistantUsageSums]
  | cons l rest ih =>
    have hstep := ocLineStep_tokens st l
    have hrec := ih (ocLineStep st l)
    simp only [List.foldl_cons, ocAssistantUsageSums]
    refine ⟨?_, ?_, ?_⟩
    · rw [hrec.1, hstep.1]; ring
    · rw [hrec.2.1, hstep.2.1]; ring
    · rw [hrec.2.2, hstep.2.2]; ring

/-- A decoded openclaw record's token counts are exactly the sums over
its assistant messages. -/
theorem parseOC_tokens (now : Int) (filePath agentId : String) (mtime : Int)
    (lines : List OCLine) (p : Parsed)
    (h : parseOpenClawSessionFile now filePath agentId mtime lines = some p) :
    p.inputTokens = (ocAssistantUsageSums lines).1 ∧
    p.outputTokens = (ocAssistantUsageSums lines).2.1 ∧
    p.totalTokens = (ocAssistantUsageSums lines).2.2 := by
  simp only [parseOpenClawSessionFile] at h
  split at h
  · exact absurd h (by simp)
  · set st0 : OCState := {
      sessionId :=
        match reFind sessionFileRe (basename filePath).toList 0 with
        | some (_, _, caps) => some (getCap caps 1)
        | none => none,
      label := none, model := "Unknown",
      updatedAt := jsOrInt mtime now,
      inputTokens := 0, outputTokens := 0, totalTokens := 0,
      inputQuery := none } with hst0
    cases hsid : (lines.foldl ocLineStep st0).sessionId with
    | none =>
      rw [hsid] at h
      exact absurd h (by simp)
    | some sid =>
      rw [hsid] at h
      have hp := Option.some.inj h
      have hfold := ocFold_tokens lines st0
      subst hp
      refine ⟨?_, ?_, ?_⟩
      · have h1 := hfold.1
        simp only [hst0] at h1 ⊢
        omega
      · have h1 := hfold.2.1
        simp only [hst0] at h1 ⊢
        omega
      · have h1 := hfold.2.2
        simp only [hst0] at h1 ⊢
        omega

set_option maxRecDepth 100000 in
/-- One codex line either overwrites the running token counters with its
`token_count` payload or leaves them unchanged. -/
theorem cxLineStep_tokens (st : CxState) (l : CxLine) :
    ((cxLineStep st l).inputTokens, (cxLineStep st l).outputTokens,
      (cxLineStep st l).totalTokens) =
    (match cxLineUsage l with
     | some v => v
     | none => (st.inputTokens, st.outputTokens, st.totalTokens)) := by
  cases l with
  | garbage => simp [cxLineStep, cxLineUsage]
  | row ts ty payload =>
    simp only [cxLineStep]
    by_cases h1 : ty = some "session_meta"
    · rw [if_pos h1]
      cases jsOptStr (payload.getD emptyCxPayload).id <;> simp [cxLineUsage, h1]
    · rw [if_neg h1]
      by_cases h2 : ty = some "turn_context"
      · rw [if_pos h2]
        cases jsOptStr (payload.getD emptyCxPayload).model <;> simp [cxLineUsage, h2]
      · rw [if_neg h2]
        by_cases h3 : ty = some "response_item"
        · rw [if_pos h3]
          by_cases h4 : ((payload.getD emptyCxPayload).type = some "message" &&
              (payload.getD emptyCxPayload).role = some "user") = true
          · rw [if_pos h4]
            cases hq : normalizeQueryText
                (some (extractTextFromContent (payload.getD emptyCxPayload).content)) 1200 with
            | none => simp [cxLineUsage, h3]
            | some q =>
              by_cases h5 : shouldSkipAutoInjectedQuery q = true
              · by_cases h6 : st.inputQuery = none <;> simp [cxLineUsage, h3, h5, h6]
              · simp [cxLineUsage, h3, h5]
          · rw [if_neg h4]
            simp [cxLineUsage, h3]
        · rw [if_neg h3]
          by_cases h4 : (ty = some "event_msg" &&
              (payload.getD emptyCxPayload).type = some "token_count") = true
          · rw [if_pos h4]
            simp [cxLineUsage, h4]
          · rw [if_neg h4]
            simp [cxLineUsage, h4]

/-- The codex line loop keeps the last `token_count` report (or the
initial zeros when there is none). -/
theorem cxFold_tokens (lines : List CxLine) (st : CxState) :
    ((lines.foldl cxLineStep st).inputTokens, (lines.foldl cxLineStep st).outputTokens,
      (lines.foldl cxLineStep st).totalTokens) =
    (match cxLastUsage lines with
     | some v => v
     | none => (st.inputTokens, st.outputTokens, st.totalTokens)) := by
  induction lines generalizing st with
  | nil => simp [cxLastUsage]
  | cons l rest ih =>
    have hstep := cxLineStep_tokens st l
    have hrec := ih (cxLineStep st l)
    simp only [List.foldl_cons, cxLastUsage]
    rw [hrec]
    cases hlast : cxLastUsage rest with
    | some v => simp
    | none =>
      simp only
      rw [hstep]

/-- A decoded codex record's token counts are the last `token_count`
report's values, not a sum. -/
theorem parseCx_tokens (now : Int) (filePath : String) (mtime : Int)
    (lines : List CxLine) (p : Parsed)
    (h : parseCodexSessionFile now filePath mtime lines = some p) :
    (p.inputTokens, p.outputTokens, p.totalTokens) =
    (match cxLastUsage lines with
     | some v => v
     | none => (0, 0, 0)) := by
  simp only [parseCodexSessionFile] at h
  split at h
  · exact absurd h (by simp)
  · set st0 : CxState := {
      sessionId := none, model := "Codex Local",
      updatedAt := jsOrInt mtime now,
      inputTokens := 0, outputTokens := 0, totalTokens := 0,
      inputQuery := none } with hst0
    have hp := Option.some.inj h
    have hfold := cxFold_tokens lines st0
    subst hp
    simp only
    rw [hfold]

/-- **C8** counterexample: a codex file reporting `(10, 5, 15)` twice
decodes to `totalTokens = 15` (the last report), while the claimed sum
over usage-report records is `30`. -/
theorem C8_decoder_usage_counterexample :
    (parseCodexSessionFile 1000 "/tmp/x.jsonl" 50 c8CxLines).map
      (fun p => p.totalTokens) = some 15 ∧
    (claimedCxUsageSums c8CxLines).2.2 = 30 ∧
    (parseCodexSessionFile 1000 "/tmp/x.jsonl" 50 c8CxLines).map
      (fun p => p.totalTokens) ≠ some (claimedCxUsageSums c8CxLines).2.2 := by
  refine ⟨by decide, by decide, by decide⟩

/-- **C8** as amended (corrected): the openclaw decoder accumulates — its
decoded token counts are the sums, over all assistant messages, of
reported input + cacheRead + cacheWrite, reported output, and reported
nonzero total or input + output; the codex decoder instead overwrites its
counters with each `token_count` report's cumulative values, so its
decoded counts equal the last report's values (zero when none). -/
theorem C8_decoder_usage_amended :
    (∀ (now : Int) (filePath agentId : String) (mtime : Int)
      (lines : List OCLine) (p : Parsed),
      parseOpenClawSessionFile now filePath agentId mtime lines = some p →
      p.inputTokens = (ocAssistantUsageSums lines).1 ∧
      p.outputTokens = (ocAssistantUsageSums lines).2.1 ∧
      p.totalTokens = (ocAssistantUsageSums lines).2.2) ∧
    (∀ (now : Int) (filePath : String) (mtime : Int)
      (lines : List CxLine) (p : Parsed),
      parseCodexSessionFile now filePath mtime lines = some p →
      (p.inputTokens, p.outputTokens, p.totalTokens) =
      (match cxLastUsage lines with
       | some v => v
       | none => (0, 0, 0))) :=
  ⟨fun now fp aid mt lines p h => parseOC_tokens now fp aid mt lines p h,
   fun now fp mt lines p h => parseCx_tokens now fp mt lines p h⟩

/-- Witness for the amended C8 at two concrete files. -/
theorem C8_decoder_usage_amended_witness :
    parseOpenClawSessionFile 1000 "f.jsonl" "a1" 50 c8OCLines = some c8OCParsed ∧
    (c8OCParsed.inputTokens = (ocAssistantUsageSums c8OCLines).1 ∧
      c8OCParsed.outputTokens = (ocAssistantUsageSums c8OCLines).2.1 ∧
      c8OCParsed.totalTokens = (ocAssistantUsageSums c8OCLines).2.2) ∧
    parseCodexSessionFile 1000 "/tmp/x.jsonl" 50 c8CxLines = some c8CxParsed ∧
    (c8CxParsed.inputTokens, c8CxParsed.outputTokens, c8CxParsed.totalTokens) =
      (match cxLastUsage c8CxLines with
       | some v => v
       | none => (0, 0, 0)) :=
  ⟨by decide,
   C8_decoder_usage_amended.1 1000 "f.jsonl" "a1" 50 c8OCLines c8OCParsed (by decide),
   by decide,
   C8_decoder_usage_amended.2 1000 "/tmp/x.jsonl" 50 c8CxLines c8CxParsed (by decide)⟩

theorem dailyLookup_addDaily (acc : List DailyRow) (r : RollupRow) (d s m : String) :
    dailyLookup (addDaily acc r) d s m =
      (if dayOf r.updatedAt = d ∧ r.source = s ∧ dailyModelOf r.model = m then
        match dailyLookup acc d s m with
        | some b => some (bumpDaily b r)
        | none => some (freshDaily r)
      else dailyLookup acc d s m) := by
  induction acc with
  | nil =>
    by_cases h1 : dayOf r.updatedAt = d <;>
    by_cases h2 : r.source = s <;>
    by_cases h3 : dailyModelOf r.model = m <;>
      simp [dailyLookup, addDaily, freshDaily, h1, h2, h3]
  | cons b bs ih =>
    simp only [addDaily]
    split
    · rename_i hcond
      simp only [Bool.and_eq_true, decide_eq_true_eq] at hcond
      obtain ⟨⟨hb1, hb2⟩, hb3⟩ := hcond
      by_cases ht : dayOf r.updatedAt = d ∧ r.source = s ∧ dailyModelOf r.model = m
      · rw [if_pos ht]
        have e1 : b.day = d := hb1.trans ht.1
        have e2 : b.source = s := hb2.trans ht.2.1
        have e3 : b.model = m := hb3.trans ht.2.2
        simp [dailyLookup, List.find?_cons, bumpDaily, e1, e2, e3]
      · rw [if_neg ht]
        have hpb : (decide (b.day = d) && decide (b.source = s) &&
            decide (b.model = m)) = false := by
          by_contra hc
          have hc' : (decide (b.day = d) && decide (b.source = s) &&
              decide (b.model = m)) = true := by
            revert hc
            cases (decide (b.day = d) && decide (b.source = s) && decide (b.model = m)) <;>
              simp
          simp only [Bool.and_eq_true, decide_eq_true_eq] at hc'
          exact ht ⟨hb1 ▸ hc'.1.1, hb2 ▸ hc'.1.2, hb3 ▸ hc'.2⟩
        simp only [dailyLookup, List.find?_cons, bumpDaily]
        simp [hpb]
    · rename_i hcond
      by_cases hpb : (decide (b.day = d) && decide (b.source = s) &&
          decide (b.model = m)) = true
      · have hb : (b.day = d ∧ b.source = s) ∧ b.model = m := by
          simpa only [Bool.and_eq_true, decide_eq_true_eq] using hpb
        by_cases ht : dayOf r.updatedAt = d ∧ r.source = s ∧ dailyModelOf r.model = m
        · exfalso
          apply hcond
          simp [hb.1.1, hb.1.2, hb.2, ht.1, ht.2.1, ht.2.2]
        · rw [if_neg ht]
          simp only [dailyLookup, List.find?_cons]
          simp [hpb]
      · have hpb' : (decide (b.day = d) && decide (b.source = s) &&
            decide (b.model = m)) = false := by
          revert hpb
          cases (decide (b.day = d) && decide (b.source = s) && decide (b.model = m)) <;>
            simp
        simp only [dailyLookup, List.find?_cons]
        simp only [hpb']
        simp only [dailyLookup] at ih
        exact ih


theorem dailyLookup_foldl (l : List RollupRow) (acc : List DailyRow) (d s m : String) :
    dailyLookup (l.foldl addDaily acc) d s m =
      applyBumps (dailyLookup acc d s m)
        (l.filter (fun r => dayOf r.updatedAt = d && r.source = s &&
          dailyModelOf r.model = m)) := by
  induction l generalizing acc with
  | nil => rfl
  | cons r l ih =>
    rw [List.foldl_cons, ih]
    by_cases ht : dayOf r.updatedAt = d /\ r.source = s /\ dailyModelOf r.model = m
    · have hf : (List.filter (fun r => decide (dayOf r.updatedAt = d) &&
          decide (r.source = s) && decide (dailyModelOf r.model = m)) (r :: l)) =
          r :: List.filter (fun r => decide (dayOf r.updatedAt = d) &&
            decide (r.source = s) && decide (dailyModelOf r.model = m)) l := by
        simp [List.filter_cons, ht.1, ht.2.1, ht.2.2]
      rw [hf, dailyLookup_addDaily, if_pos ht]
      cases dailyLookup acc d s m <;> rfl
    · have hc0 : (decide (dayOf r.updatedAt = d) && decide (r.source = s) &&
          decide (dailyModelOf r.model = m)) = false := by
        by_contra hc
        apply ht
        have hcT : (decide (dayOf r.updatedAt = d) && decide (r.source = s) &&
            decide (dailyModelOf r.model = m)) = true := by
          revert hc
          cases (decide (dayOf r.updatedAt = d) && decide (r.source = s) &&
              decide (dailyModelOf r.model = m)) <;> simp
        simp only [Bool.and_eq_true, decide_eq_true_eq] at hcT
        exact (And.intro hcT.1.1 (And.intro hcT.1.2 hcT.2))
      have hf : (List.filter (fun r => decide (dayOf r.updatedAt = d) &&
          decide (r.source = s) && decide (dailyModelOf r.model = m)) (r :: l)) =
          List.filter (fun r => decide (dayOf r.updatedAt = d) &&
            decide (r.source = s) && decide (dailyModelOf r.model = m)) l := by
        simp only [List.filter_cons]
        rw [hc0]
        simp
      rw [hf, dailyLookup_addDaily, if_neg ht]


theorem applyBumps_some (rs : List RollupRow) (b : DailyRow) :
    applyBumps (some b) rs =
      some { b with
             inputTokens := b.inputTokens + (rs.map RollupRow.inputTokens).sum
             outputTokens := b.outputTokens + (rs.map RollupRow.outputTokens).sum
             totalTokens := b.totalTokens + (rs.map RollupRow.totalTokens).sum
             sessions := b.sessions + (rs.length : Int) } := by
  induction rs generalizing b with
  | nil => cases b; simp [applyBumps]
  | cons r rs ih =>
    show applyBumps (some (bumpDaily b r)) rs = _
    rw [ih]
    cases b
    simp [bumpDaily]
    refine And.intro (by ring) (And.intro (by ring) (And.intro (by ring) (by push_cast; ring)))


theorem applyBumps_none_group (g : List RollupRow) (d s m : String)
    (h : forall r, r ∈ g -> dayOf r.updatedAt = d /\ r.source = s /\ dailyModelOf r.model = m) :
    applyBumps none g =
      (if g = [] then none
      else some { day := d, source := s, model := m,
                  inputTokens := (g.map RollupRow.inputTokens).sum,
                  outputTokens := (g.map RollupRow.outputTokens).sum,
                  totalTokens := (g.map RollupRow.totalTokens).sum,
                  sessions := (g.length : Int) }) := by
  cases g with
  | nil => rfl
  | cons r rs =>
    have hr := h r (List.mem_cons_self r rs)
    show applyBumps (some (freshDaily r)) rs = _
    rw [applyBumps_some]
    simp [freshDaily, hr.1, hr.2.1, hr.2.2]
    omega


theorem addDaily_key_origin (acc : List DailyRow) (r : RollupRow) (b : DailyRow)
    (hb : b ∈ addDaily acc r) :
    (∃ b0, b0 ∈ acc /\ b.day = b0.day /\ b.source = b0.source /\ b.model = b0.model) ∨
      (b.day = dayOf r.updatedAt /\ b.source = r.source /\ b.model = dailyModelOf r.model) := by
  induction acc with
  | nil =>
    right
    simp only [addDaily, List.mem_singleton] at hb
    subst hb
    exact And.intro rfl (And.intro rfl rfl)
  | cons c cs ih =>
    simp only [addDaily] at hb
    split at hb
    · rcases List.mem_cons.mp hb with hb | hb
      · left
        refine Exists.intro c (And.intro (List.mem_cons_self c cs) ?_)
        subst hb
        exact And.intro rfl (And.intro rfl rfl)
      · left
        exact Exists.intro b (And.intro (List.mem_cons.mpr (Or.inr hb))
          (And.intro rfl (And.intro rfl rfl)))
    · rcases List.mem_cons.mp hb with hb | hb
      · left
        refine Exists.intro c (And.intro (List.mem_cons_self c cs) ?_)
        subst hb
        exact And.intro rfl (And.intro rfl rfl)
      · rcases ih hb with h1 | he
        · rcases h1 with ⟨b0, hb0, he⟩
          exact Or.inl (Exists.intro b0 (And.intro (List.mem_cons.mpr (Or.inr hb0)) he))
        · exact Or.inr he


theorem foldl_addDaily_key_origin (l : List RollupRow) (acc : List DailyRow)
    (b : DailyRow) (hb : b ∈ l.foldl addDaily acc) :
    (∃ b0, b0 ∈ acc /\ b.day = b0.day /\ b.source = b0.source /\ b.model = b0.model) ∨
      (∃ r, r ∈ l /\ b.day = dayOf r.updatedAt /\ b.source = r.source /\
        b.model = dailyModelOf r.model) := by
  induction l generalizing acc with
  | nil => exact Or.inl (Exists.intro b (And.intro hb (And.intro rfl (And.intro rfl rfl))))
  | cons r l ih =>
    rw [List.foldl_cons] at hb
    rcases ih (addDaily acc r) hb with h1 | h2
    · rcases h1 with ⟨b0, hb0, he⟩
      rcases addDaily_key_origin acc r b0 hb0 with h3 | he1
      · rcases h3 with ⟨b1, hb1, he1⟩
        exact Or.inl (Exists.intro b1 (And.intro hb1 (And.intro (he.1.trans he1.1)
          (And.intro (he.2.1.trans he1.2.1) (he.2.2.trans he1.2.2)))))
      · exact Or.inr (Exists.intro r (And.intro (List.mem_cons_self r l)
          (And.intro (he.1.trans he1.1)
            (And.intro (he.2.1.trans he1.2.1) (he.2.2.trans he1.2.2)))))
    · rcases h2 with ⟨r0, hr0, he⟩
      exact Or.inr (Exists.intro r0 (And.intro (List.mem_cons.mpr (Or.inr hr0)) he))


theorem addDaily_pairwise (acc : List DailyRow) (r : RollupRow)
    (h : acc.Pairwise keyDistinct) : (addDaily acc r).Pairwise keyDistinct := by
  induction acc with
  | nil =>
    simp [addDaily]
  | cons c cs ih =>
    rw [List.pairwise_cons] at h
    simp only [addDaily]
    split
    · rw [List.pairwise_cons]
      refine And.intro (fun b hb => ?_) h.2
      have hd := h.1 b hb
      simpa [bumpDaily, keyDistinct] using hd
    · rename_i hne
      rw [List.pairwise_cons]
      refine And.intro (fun b hb => ?_) (ih h.2)
      rcases addDaily_key_origin cs r b hb with h1 | he
      · rcases h1 with ⟨b0, hb0, he⟩
        have hd := h.1 b0 hb0
        intro hcc
        exact hd (And.intro (hcc.1.trans he.1)
          (And.intro (hcc.2.1.trans he.2.1) (hcc.2.2.trans he.2.2)))
      · intro hcc
        apply hne
        simp only [Bool.and_eq_true, decide_eq_true_eq]
        exact And.intro (And.intro (hcc.1.trans he.1) (hcc.2.1.trans he.2.1))
          (hcc.2.2.trans he.2.2)


theorem foldl_addDaily_pairwise (l : List RollupRow) (acc : List DailyRow)
    (h : acc.Pairwise keyDistinct) : (l.foldl addDaily acc).Pairwise keyDistinct := by
  induction l generalizing acc with
  | nil => exact h
  | cons r l ih =>
    rw [List.foldl_cons]
    exact ih (addDaily acc r) (addDaily_pairwise acc r h)


/-- C4: after `rebuildTokenDaily`, the daily bucket found at any key
`(day, source, model)` holds exactly the per-field sums and the row count of
the positive-total rollup rows grouped at that key (and is absent when the
group is empty); every bucket row originates from such a rollup row, and
bucket keys are pairwise distinct, so no other daily rows exist. -/
theorem C4_daily_rebuild (rollup : List RollupRow) (d s m : String) :
    (dailyLookup (rebuildTokenDaily rollup) d s m =
      (if dailyGroup rollup d s m = [] then none
      else some { day := d, source := s, model := m,
                  inputTokens := ((dailyGroup rollup d s m).map RollupRow.inputTokens).sum,
                  outputTokens := ((dailyGroup rollup d s m).map RollupRow.outputTokens).sum,
                  totalTokens := ((dailyGroup rollup d s m).map RollupRow.totalTokens).sum,
                  sessions := ((dailyGroup rollup d s m).length : Int) })) ∧
    (∀ b ∈ rebuildTokenDaily rollup,
      ∃ r, r ∈ rollup ∧ r.totalTokens > 0 ∧ b.day = dayOf r.updatedAt ∧
        b.source = r.source ∧ b.model = dailyModelOf r.model) ∧
    (rebuildTokenDaily rollup).Pairwise keyDistinct := by
  refine And.intro ?_ (And.intro ?_ ?_)
  · rw [rebuildTokenDaily, dailyLookup_foldl]
    have hnone : dailyLookup [] d s m = none := rfl
    rw [hnone]
    apply applyBumps_none_group
    intro r hrm
    have hprop := List.of_mem_filter hrm
    simp only [Bool.and_eq_true, decide_eq_true_eq] at hprop
    exact And.intro hprop.1.1 (And.intro hprop.1.2 hprop.2)
  · intro b hb
    rw [rebuildTokenDaily] at hb
    rcases foldl_addDaily_key_origin _ [] b hb with h1 | h2
    · rcases h1 with ⟨b0, hb0, _⟩
      exact absurd hb0 (List.not_mem_nil b0)
    · rcases h2 with ⟨r, hrm, he⟩
      have hr := List.mem_filter.mp hrm
      refine Exists.intro r (And.intro hr.1 (And.intro ?_ he))
      simpa using hr.2
  · rw [rebuildTokenDaily]
    exact foldl_addDaily_pairwise _ [] List.Pairwise.nil

/-- C1 failing input: a store holding one fact row and one rollup row 100 days
old (beyond the 90-day default retention) together with the daily bucket
covering that same period, and an empty ingestion input.  The pass deletes the
old fact and rollup rows as the claim says, but because `ingestDashboardData`
rebuilds `token_daily` from scratch out of the pruned rollup table, the daily
bucket for the old period is deleted too, contradicting the claim that such a
bucket remains present. -/
theorem C1_retention_daily_bug :
    c1Fact.updatedAt < c1Now - defaultRetentionMs ∧
    c1Daily.day = dayOf c1Fact.updatedAt ∧ c1Daily ∈ c1Store.tokenDaily ∧
    (ingestDashboardData defaultRetentionMs c1Now [] [] [] c1Store).fact = [] ∧
    (ingestDashboardData defaultRetentionMs c1Now [] [] [] c1Store).rollup = [] ∧
    (ingestDashboardData defaultRetentionMs c1Now [] [] [] c1Store).tokenDaily = [] := by
  refine And.intro (by decide) (And.intro rfl (And.intro (by decide)
    (And.intro rfl (And.intro rfl rfl))))

end OpenClawDash
